import Mathlib

set_option autoImplicit false

/-!
Shallow embedding of the codemirror template mode core (src/index.ts).

Modelling conventions:
* JS strings are `List Char`; JS numbers that can carry the `-1` sentinel
  are `Int`, ordinary offsets are `Nat`.
* The cyclic `IPattern` graph is an arena: patterns are identified by their
  index into a `Grammar` (a list of `PatternData`); reference identity of
  patterns in the source corresponds to equality of indices.
* JS truthiness checks on matcher specs (`if (open)`, `if (close)`,
  `if (!escape)`) are modelled by `specTruthy` / `patTruthy`: `undefined`
  and the empty string are falsy, every regexp or function is truthy.
* The single callback matcher the repository defines (the `template`
  pattern's `open` function) is modelled as a closed enumeration
  `CallbackKind` interpreted by `runCallback`.
* The unbounded `while` loops of `matchWithEscape` and `createLayers` are
  modelled with explicit fuel; running out of fuel is the distinguished
  result `ScanErr.timeout`, a JS runtime `TypeError`/`throw` is
  `ScanErr.crash`.
-/

namespace CxjTemplate

abbrev Str := List Char

abbrev ModeId := Str

/-- JS `line.indexOf(pat, i)` scanning helper: first index `≥ i` where `pat`
occurs in the remaining suffix `rest`, as an `Int` with `-1` for no match. -/
def jsIndexOfAux (pat : Str) : List Char → Nat → Int
  | [], i => if pat.isPrefixOf ([] : List Char) then (i : Int) else -1
  | c :: t, i => if pat.isPrefixOf (c :: t) then (i : Int) else jsIndexOfAux pat t (i + 1)

/-- JS `String.prototype.indexOf(pat, fromPos)` (`fromPos` clamped to the
string length, as in JS). -/
def jsIndexOf (line pat : Str) (fromPos : Nat) : Int :=
  jsIndexOfAux pat (line.drop (min fromPos line.length)) (min fromPos line.length)

/-- JS `String.prototype.endsWith(pat, endPos)`: `pat` is a suffix of the
first `endPos` characters of `line`. -/
def jsEndsWith (line pat : Str) (endPos : Nat) : Bool :=
  pat.isSuffixOf (line.take endPos)

/-- JS `String.prototype.slice(fromPos, toPos)` for `0 ≤ fromPos ≤ toPos`. -/
def jsSlice (line : Str) (fromPos toPos : Nat) : Str :=
  (line.take toPos).drop fromPos

/-- JS `matched ? matched.length : 0` (`null` and the empty string both give 0). -/
def matchedLen (m : Option Str) : Nat :=
  match m with
  | none => 0
  | some l => l.length

/-- The closed set of callback matchers defined by the repository: the
`template` pattern's contextual `open` function from `createDefaultOptions`. -/
inductive CallbackKind where
  | templateOpen
  deriving DecidableEq, Repr

/-- Matcher specification: `PatternLike = RegExp | string | callback`.
A regexp is carried as its (source, flags) pair, which is all the
normalizer/cache layer of the source operates on. -/
inductive PatternLike where
  | lit (s : Str)
  | regex (source : Str) (flags : Str)
  | callback (c : CallbackKind)
  deriving DecidableEq, Repr

/-- JS truthiness of a matcher spec value: the empty string is falsy,
any other string, any RegExp object and any function are truthy. -/
def patTruthy : PatternLike → Bool
  | .lit [] => false
  | .lit (_ :: _) => true
  | .regex _ _ => true
  | .callback _ => true

/-- JS truthiness of an optional matcher spec (`undefined` is falsy). -/
def specTruthy : Option PatternLike → Bool
  | none => false
  | some p => patTruthy p

/-- One pattern of the grammar (`IPattern`); `children` are arena indices,
so cyclic pattern graphs of the source are representable. -/
structure PatternData where
  mode : Option ModeId
  «open» : Option PatternLike
  close : Option PatternLike
  escape : Option PatternLike
  children : Option (List Nat)
  includePattern : Bool
  patternStyles : Option (Option Str × Option Str)
  deriving DecidableEq, Repr

/-- A grammar is the arena of its patterns; index 0 is the root
(`finalParserConfig` in `defineMode`). -/
abbrev Grammar := List PatternData

/-- One link of the embedded-mode-state stack (`IStateContext`); the
sub-mode's opaque state has type `σ`. -/
structure StateCtx (σ : Type) where
  mode : ModeId
  state : σ
  deriving DecidableEq, Repr

/-- One recorded transition (`ILayer`); patterns are arena indices. -/
structure Layer where
  pos : Int
  matched : Option Str
  «open» : Bool
  prePattern : Nat
  nextPattern : Nat
  deriving DecidableEq, Repr

/-- The persisted tokenizer state (`ITemplateState`).  The pattern-context
stack is the list of arena indices, head = top, `[]` = JS `null`.  The
regexp cache is recorded by its keys (the compiled value is a function of
the key, so keys capture the observable state).  `customs` is an ordered
string-keyed map; the built-in callbacks only ever store booleans. -/
structure TemplateState (σ : Type) where
  textBefore : Str
  patternContext : List Nat
  stateContext : List (StateCtx σ)
  useRoot : Bool
  start : Bool
  layers : Option (List Layer)
  regExpCache : List Str
  customs : List (Str × Bool)
  deriving DecidableEq, Repr

/-- Lookup in the `customs` scratch map (JS property read, `none` =
`undefined`). -/
def getCustom : List (Str × Bool) → Str → Option Bool
  | [], _ => none
  | (k', v) :: t, k => if k' = k then some v else getCustom t k

/-- Write to the `customs` scratch map (JS property assignment). -/
def setCustom : List (Str × Bool) → Str → Bool → List (Str × Bool)
  | [], k, v => [(k, v)]
  | (k', v') :: t, k, v => if k' = k then (k, v) :: t else (k', v') :: setCustom t k v

/-- Error outcomes of the fueled interpreters: `crash` models a thrown JS
error (`throw`, a `TypeError` on a `null` dereference, or a `RegExp`
source our regexp model does not interpret); `timeout` models fuel
exhaustion, i.e. a run of the source's unbounded loop longer than the
supplied fuel. -/
inductive ScanErr where
  | crash
  | timeout
  deriving DecidableEq, Repr

/-- The `pushPatternContext` helper: cons a pattern on the context stack. -/
def pushPatternContext {σ : Type} (s : TemplateState σ) (pattern : Nat) : TemplateState σ :=
  { s with patternContext := pattern :: s.patternContext }

/-- The `popPatternContext` helper: `state.patternContext = state.patternContext.pre!`;
popping the last link yields the JS `null` context (`[]`). -/
def popPatternContext {σ : Type} (s : TemplateState σ) : TemplateState σ :=
  { s with patternContext := s.patternContext.tail }

/-- The `getCurrentPattern` helper; reading the pattern of a `null` context
is a JS `TypeError`, modelled as `crash`. -/
def getCurrentPattern {σ : Type} (s : TemplateState σ) : Except ScanErr Nat :=
  match s.patternContext.head? with
  | some p => .ok p
  | none => .error .crash

/-- Arena lookup of a pattern id.  In the source patterns are direct object
references, so a dangling id does not correspond to any source state; we
surface it as `crash`. -/
def lookupPattern (g : Grammar) (i : Nat) : Except ScanErr PatternData :=
  match g.get? i with
  | some pd => .ok pd
  | none => .error .crash

/-- Anchor requirement of `getCachedRegExp` (`AnchorMode`). -/
inductive AnchorMode where
  | NONE
  | START
  | END
  | ALL
  deriving DecidableEq, Repr

/-- The `makeSureAnchor` source rewriter: add or strip a leading `^` /
trailing `$` on the textual regexp source. -/
def makeSureAnchor (source : Str) (start exist : Bool) : Str :=
  if start then
    if exist ∧ ¬source.head? = some '^' then '^' :: source
    else if ¬exist ∧ source.head? = some '^' then source.tail
    else source
  else
    if exist ∧ ¬source.getLast? = some '$' then source ++ ['$']
    else if ¬exist ∧ source.getLast? = some '$' then source.dropLast
    else source

/-- The anchor rewriting performed by `getCachedRegExp` for each mode. -/
def normalizeSource (source : Str) : AnchorMode → Str
  | .ALL => makeSureAnchor (makeSureAnchor source true true) false true
  | .END => makeSureAnchor (makeSureAnchor source true false) false true
  | .NONE => makeSureAnchor (makeSureAnchor source true false) false false
  | .START => makeSureAnchor (makeSureAnchor source true true) false false

/-- The flag rewriting performed by `getCachedRegExp`: force the global
flag on or off. -/
def normalizeFlags (flags : Str) (global : Bool) : Str :=
  if global ∧ ¬flags.contains 'g' then flags ++ ['g']
  else if ¬global ∧ flags.contains 'g' then flags.filter (fun c => ¬c = 'g')
  else flags

/-- The cache key built by `getCachedRegExp`. -/
def regexKey (source flags : Str) : Str :=
  source ++ "tVes#aE$".data ++ flags

/-- Atoms of the regexp fragment our model interprets (single characters
plus the two character classes the repository's grammar uses). -/
inductive RAtom where
  | ch (c : Char)
  | clsSpace
  | clsWord
  deriving DecidableEq, Repr

/-- Greediness-quantifiers of the interpreted regexp fragment. -/
inductive RQuant where
  | one
  | opt
  | star
  deriving DecidableEq, Repr

abbrev RItem := RAtom × RQuant

/-- Parsed shape of an interpreted regexp source: optional `^`, a sequence
of quantified atoms, optional `$`. -/
structure SimpleRegex where
  caret : Bool
  items : List RItem
  dollar : Bool
  deriving DecidableEq, Repr

/-- JS whitespace test used for the `\s` class and `REG_SPACE`. -/
def jsIsSpace (c : Char) : Bool :=
  c = ' ' ∨ c = '\t' ∨ c = '\n' ∨ c = '\r' ∨ c = '\x0b' ∨ c = '\x0c'

/-- JS `\w` word-character class. -/
def jsIsWord (c : Char) : Bool :=
  ('a' ≤ c ∧ c ≤ 'z') ∨ ('A' ≤ c ∧ c ≤ 'Z') ∨ ('0' ≤ c ∧ c ≤ '9') ∨ c = '_'

/-- Whether an atom matches one character. -/
def atomMatches : RAtom → Char → Bool
  | .ch c, x => x = c
  | .clsSpace, x => jsIsSpace x
  | .clsWord, x => jsIsWord x

/-- The atom produced by a backslash escape in a regexp source. -/
def escAtom (c : Char) : RAtom :=
  if c = 's' then .clsSpace else if c = 'w' then .clsWord else .ch c

/-- Regexp metacharacters outside the interpreted fragment; a source using
one of them unescaped fails to parse (and executing it crashes). -/
def isRegexSpecial (c : Char) : Bool :=
  c = '?' ∨ c = '*' ∨ c = '^' ∨ c = '$' ∨ c = '[' ∨ c = ']' ∨
  c = '(' ∨ c = ')' ∨ c = '|' ∨ c = '+' ∨ c = '.'

/-- Parser for the quantified-atom body of a regexp source (an atom is a
backslash escape or a plain non-metacharacter, optionally quantified). -/
def parseItems : List Char → Option (List RItem)
  | [] => some []
  | ['\\'] => none
  | '\\' :: c :: '?' :: rest => (parseItems rest).map (fun l => (escAtom c, RQuant.opt) :: l)
  | '\\' :: c :: '*' :: rest => (parseItems rest).map (fun l => (escAtom c, RQuant.star) :: l)
  | '\\' :: c :: rest => (parseItems rest).map (fun l => (escAtom c, RQuant.one) :: l)
  | c :: '?' :: rest =>
    if isRegexSpecial c then none
    else (parseItems rest).map (fun l => (RAtom.ch c, RQuant.opt) :: l)
  | c :: '*' :: rest =>
    if isRegexSpecial c then none
    else (parseItems rest).map (fun l => (RAtom.ch c, RQuant.star) :: l)
  | c :: rest =>
    if isRegexSpecial c then none
    else (parseItems rest).map (fun l => (RAtom.ch c, RQuant.one) :: l)

/-- Parse a full regexp source: strip one leading `^` and one trailing
(unescaped, hence parseable) `$`, then parse the body. -/
def parseRegex (src : Str) : Option SimpleRegex :=
  let (caret, s1) :=
    match src with
    | '^' :: t => (true, t)
    | _ => (false, src)
  let (dollar, s2) :=
    if s1.getLast? = some '$' then (true, s1.dropLast) else (false, s1)
  (parseItems s2).map (fun items => ⟨caret, items, dollar⟩)

/-- Backtracking matcher for a quantified-atom sequence against a suffix,
greedy-first as in JS; `k` is the acceptance condition on the unconsumed
remainder (used for the `$` anchor).  Returns the number of characters
consumed by the preferred match.  Structural recursion on a fuel that
every recursive call strictly decreases together with
`rest.length + items.length`, so the wrapper's fuel never runs out. -/
def matchItemsF : Nat → List RItem → List Char → (List Char → Bool) → Option Nat
  | 0, _, _, _ => none
  | _ + 1, [], rest, k => if k rest then some 0 else none
  | fuel + 1, (a, .one) :: items, rest, k =>
    match rest with
    | [] => none
    | c :: rest' =>
      if atomMatches a c then (matchItemsF fuel items rest' k).map (fun n => n + 1) else none
  | fuel + 1, (a, .opt) :: items, rest, k =>
    (match rest with
     | [] => none
     | c :: rest' =>
       if atomMatches a c then (matchItemsF fuel items rest' k).map (fun n => n + 1)
       else none) <|>
    matchItemsF fuel items rest k
  | fuel + 1, (a, .star) :: items, rest, k =>
    (match rest with
     | [] => none
     | c :: rest' =>
       if atomMatches a c then
         (matchItemsF fuel ((a, .star) :: items) rest' k).map (fun n => n + 1)
       else none) <|>
    matchItemsF fuel items rest k

/-- The backtracking matcher with always-sufficient fuel. -/
def matchItems (items : List RItem) (rest : List Char) (k : List Char → Bool) : Option Nat :=
  matchItemsF (rest.length + items.length + 1) items rest k

/-- Leftmost search of the body starting at char index `p`, where `rest`
is the corresponding suffix of the input. -/
def searchAux (items : List RItem) (dollar : Bool) : List Char → Nat → Option (Nat × Str)
  | rest, p =>
    match matchItems items rest (fun rem => ¬dollar ∨ rem.isEmpty) with
    | some n => some (p, rest.take n)
    | none =>
      match rest with
      | [] => none
      | _ :: t => searchAux items dollar t (p + 1)

/-- JS `reg.exec(input)` with `reg.lastIndex = start` for a global regexp
(and `start = 0` for the non-global suffix checks): leftmost match at or
after `start`, returning (index, matched text). -/
def regexExecFrom (r : SimpleRegex) (input : Str) (start : Nat) : Option (Nat × Str) :=
  if input.length < start then none
  else if r.caret then
    if start = 0 then
      (matchItems r.items input (fun rem => ¬r.dollar ∨ rem.isEmpty)).map
        (fun n => (0, input.take n))
    else none
  else searchAux r.items r.dollar (input.drop start) start

/-- The `getCachedRegExp` function: rewrite source anchors and the global
flag, compile (crash when the rewritten source is outside the interpreted
fragment, as `new RegExp` may throw), and record the cache key in the
state.  Returns the compiled regexp together with the updated state. -/
def getCachedRegExpM {σ : Type} (s : TemplateState σ) (source flags : Str)
    (anchor : AnchorMode) (global : Bool) :
    Except ScanErr (SimpleRegex × TemplateState σ) :=
  let nsrc := normalizeSource source anchor
  let nflags := normalizeFlags flags global
  let key := regexKey nsrc nflags
  match parseRegex nsrc with
  | none => .error .crash
  | some r =>
    if key ∈ s.regExpCache then .ok (r, s)
    else .ok (r, { s with regExpCache := s.regExpCache ++ [key] })

/-- Matching direction (`MatchMode`): forward search (`DEFAULT`) or the
suffix check ending at a given position (`PREFIX` in the source). -/
inductive MatchMode where
  | DEFAULT
  | SUFFIX
  deriving DecidableEq, Repr

/-- Test `REG_SPACE = /^\s*$/` used by the built-in template opener. -/
def regSpaceTest (s : Str) : Bool :=
  s.all jsIsSpace

/-- Interpretation of the closed callback set.  `templateOpen` is the
`open` function of the `template` pattern in `createDefaultOptions`: find
the next `[`, but only when `customs.justExitTemplate === true` and only
when everything since the last structural event (the accumulated
`textBefore` plus the text skipped up to the bracket) is whitespace. -/
def runCallback {σ : Type} (c : CallbackKind) (text : Str) (fromPos : Nat)
    (s : TemplateState σ) : Int × Option Str :=
  match c with
  | .templateOpen =>
    let pos := jsIndexOf text ['['] fromPos
    let pos : Int :=
      if ¬getCustom s.customs "justExitTemplate".data = some true ∨
          (0 ≤ pos ∧ ¬regSpaceTest (s.textBefore ++ jsSlice text fromPos pos.toNat)) then
        -1
      else pos
    if 0 ≤ pos then (pos, some ['[']) else (-1, none)

/-- The `match` function of the source: resolve one matcher spec against
the line, forward from `position` or as a suffix check ending at
`position`.  Returns the (index, matched-text) pair and the state (the
regexp branch may extend the cache). -/
def jsMatch {σ : Type} (line : Str) (position : Nat) (mode : MatchMode)
    (p : PatternLike) (s : TemplateState σ) :
    Except ScanErr ((Int × Option Str) × TemplateState σ) :=
  match p with
  | .lit str =>
    match mode with
    | .DEFAULT =>
      let index := jsIndexOf line str position
      .ok ((index, if 0 ≤ index then some str else none), s)
    | .SUFFIX =>
      .ok
        (if jsEndsWith line str position then ((position : Int) - str.length, some str)
         else (-1, none), s)
  | .callback c => .ok (runCallback c line position s, s)
  | .regex src flags =>
    match mode with
    | .DEFAULT =>
      (getCachedRegExpM s src flags .NONE true).map
        (fun (r, s') =>
          (match regexExecFrom r line position with
           | some (i, m) => ((i : Int), some m)
           | none => (-1, none), s'))
    | .SUFFIX =>
      (getCachedRegExpM s src flags .END false).map
        (fun (r, s') =>
          (match regexExecFrom r (line.take position) 0 with
           | some (i, m) => ((i : Int), some m)
           | none => (-1, none), s'))

/-- The `checkEscape` function: an occurrence at `offset` is escaped when
the escape spec matches as a suffix ending exactly at `offset` (a falsy
escape spec never escapes anything). -/
def checkEscape {σ : Type} (s : TemplateState σ) (line : Str) (offset : Nat)
    (escape : Option PatternLike) : Except ScanErr (Bool × TemplateState σ) :=
  if ¬specTruthy escape then .ok (false, s)
  else
    match escape with
    | none => .ok (false, s)
    | some e =>
      (jsMatch line offset .SUFFIX e s).map (fun ((pos, _), s') => (decide (0 ≤ pos), s'))

/-- Loop body of `matchWithEscape`: `pos`/`matched` hold the latest result
of the forward search; while the found occurrence is escaped, resume the
search right after it.  Fuel bounds the number of resumes. -/
def mweLoop {σ : Type} (line : Str) (p : PatternLike) (escape : Option PatternLike) :
    Nat → Int → Option Str → TemplateState σ →
    Except ScanErr ((Int × Option Str) × TemplateState σ)
  | fuel, pos, matched, s =>
    if pos = -1 then .ok ((-1, none), s)
    else
      match checkEscape s line pos.toNat escape with
      | .error e => .error e
      | .ok (escaped, s₁) =>
        if ¬escaped then .ok ((pos, matched), s₁)
        else
          match fuel with
          | 0 => .error .timeout
          | fuel' + 1 =>
            let next := pos.toNat + matchedLen matched
            match jsMatch line next .DEFAULT p s₁ with
            | .error e => .error e
            | .ok ((pos', matched'), s₂) => mweLoop line p escape fuel' pos' matched' s₂

/-- The `matchWithEscape` function: forward search for `p` skipping escaped
occurrences. -/
def matchWithEscapeF {σ : Type} (fuel : Nat) (line : Str) (position : Nat)
    (p : PatternLike) (escape : Option PatternLike) (s : TemplateState σ) :
    Except ScanErr ((Int × Option Str) × TemplateState σ) :=
  match jsMatch line position .DEFAULT p s with
  | .error e => .error e
  | .ok ((pos, matched), s₁) => mweLoop line p escape fuel pos matched s₁

/-- Result part of a state-threading outcome (used to state matcher facts
independently of the returned state). -/
def resultOf {α : Type} : Except ScanErr (α × TemplateState Unit) → Except ScanErr α
  | .ok (r, _) => .ok r
  | .error e => .error e

/-- Transition kind found by one scan iteration (`FoundMode`). -/
inductive FoundMode where
  | PUSH
  | POP
  | NONE
  deriving DecidableEq, Repr

/-- Running candidate of one scan iteration: the `found`/`pos`/`matched`/
`nextPattern` mutable locals of the `createLayers` loop body. -/
structure Cand where
  found : FoundMode
  pos : Int
  matched : Option Str
  next : Nat
  deriving DecidableEq, Repr

/-- Info record handed to the lifecycle hooks. -/
structure HookInfo where
  line : Str
  pos : Int
  textBefore : Str
  matched : Option Str
  pattern : Nat
  deriving DecidableEq, Repr

/-- A lifecycle hook mutates the state given the info record. -/
def HookFn (σ : Type) := TemplateState σ → HookInfo → TemplateState σ

/-- The four optional lifecycle hooks of the parser configuration
(`beforeEnter`/`afterEnter`/`beforeExit`/`afterExit`). -/
structure Hooks (σ : Type) where
  beforeEnter : Option (HookFn σ)
  afterEnter : Option (HookFn σ)
  beforeExit : Option (HookFn σ)
  afterExit : Option (HookFn σ)

/-- Run an optional hook (`hook && hook(state, info)`). -/
def runHook {σ : Type} (h : Option (HookFn σ)) (s : TemplateState σ) (i : HookInfo) :
    TemplateState σ :=
  match h with
  | none => s
  | some f => f s i

/-- Inner fuel handed by `createLayers` to each `matchWithEscape` call; the
escape-resume loop advances strictly through the line whenever it
terminates at all, so `line.length + 2` resumes are always enough (see the
`mweLoop` termination lemmas). -/
def innerFuel (line : Str) : Nat :=
  line.length + 2

/-- The children loop of `createLayers`: try every child's truthy `open`
with the enclosing pattern's escape spec, keeping the strictly-nearest
candidate (declaration order breaks ties). -/
def scanChildren {σ : Type} (g : Grammar) (line : Str) (offset : Nat)
    (escape : Option PatternLike) :
    List Nat → Cand → TemplateState σ → Except ScanErr (Cand × TemplateState σ)
  | [], acc, s => .ok (acc, s)
  | cid :: rest, acc, s =>
    match lookupPattern g cid with
    | .error e => .error e
    | .ok cd =>
      match cd.«open» with
      | none => scanChildren g line offset escape rest acc s
      | some op =>
        if patTruthy op then
          match matchWithEscapeF (innerFuel line) line offset op escape s with
          | .error e => .error e
          | .ok ((tmpPos, tmpMatched), s') =>
            let acc' :=
              if 0 ≤ tmpPos ∧ (acc.pos = -1 ∨ tmpPos < acc.pos) then
                ⟨.PUSH, tmpPos, tmpMatched, cid⟩
              else acc
            scanChildren g line offset escape rest acc' s'
        else scanChildren g line offset escape rest acc s

/-- Closer part of one `createLayers` iteration: try the current pattern's
truthy `close` with its escape, producing the initial candidate. -/
def closerCand {σ : Type} (line : Str) (offset : Nat) (prePattern : Nat)
    (pd : PatternData) (s : TemplateState σ) : Except ScanErr (Cand × TemplateState σ) :=
  match pd.close with
  | some close =>
    if patTruthy close then
      match matchWithEscapeF (innerFuel line) line offset close pd.escape s with
      | .error e => .error e
      | .ok ((tmpPos, tmpMatched), s') =>
        .ok
          (if 0 ≤ tmpPos then ⟨.POP, tmpPos, tmpMatched, prePattern⟩
           else ⟨.NONE, -1, none, prePattern⟩, s')
    else .ok (⟨.NONE, -1, none, prePattern⟩, s)
  | none => .ok (⟨.NONE, -1, none, prePattern⟩, s)

/-- Tail of one `createLayers` iteration once the winning candidate is
known: accumulate the skipped text, fire the lifecycle hooks around the
pattern-context mutation, reset `textBefore` and record the layer. -/
def finishStep {σ : Type} (pc : Hooks σ) (line : Str) (offset : Nat) (prePattern : Nat)
    (acc : Cand) (s : TemplateState σ) :
    Except ScanErr (Option (Layer × Nat) × TemplateState σ) :=
  match acc.found with
  | .NONE =>
    .ok (none, { s with textBefore := s.textBefore ++ line.drop offset })
  | .PUSH =>
    let pattern := acc.next
    let s₃ := { s with textBefore := s.textBefore ++ jsSlice line offset acc.pos.toNat }
    let s₄ := runHook pc.beforeEnter s₃
      ⟨line, acc.pos, s₃.textBefore, acc.matched, pattern⟩
    let s₅ := pushPatternContext s₄ pattern
    let s₆ := runHook pc.afterEnter s₅
      ⟨line, acc.pos, s₅.textBefore, acc.matched, pattern⟩
    let s₇ := { s₆ with textBefore := [] }
    .ok
      (some
        (⟨acc.pos, acc.matched, true, prePattern, pattern⟩,
         acc.pos.toNat + matchedLen acc.matched), s₇)
  | .POP =>
    let pattern := prePattern
    let s₃ := { s with textBefore := s.textBefore ++ jsSlice line offset acc.pos.toNat }
    let s₄ := runHook pc.beforeExit s₃
      ⟨line, acc.pos, s₃.textBefore, acc.matched, pattern⟩
    let s₅ := popPatternContext s₄
    let s₆ := runHook pc.afterExit s₅
      ⟨line, acc.pos, s₅.textBefore, acc.matched, pattern⟩
    match getCurrentPattern s₆ with
    | .error e => .error e
    | .ok nextPattern =>
      let s₇ := { s₆ with textBefore := [] }
      .ok
        (some
          (⟨acc.pos, acc.matched, false, prePattern, nextPattern⟩,
           acc.pos.toNat + matchedLen acc.matched), s₇)

/-- One iteration of the `createLayers` while-loop: compute the closer and
child-opener candidates, pick the transition, fire hooks and mutate the
pattern-context stack.  Returns `none` when no transition was found (the
remaining text is then accumulated into `textBefore` as in the source's
`else` branch), otherwise the recorded layer and the next offset. -/
def scanStep {σ : Type} (g : Grammar) (pc : Hooks σ) (line : Str) (offset : Nat)
    (s : TemplateState σ) :
    Except ScanErr (Option (Layer × Nat) × TemplateState σ) :=
  match getCurrentPattern s with
  | .error e => .error e
  | .ok prePattern =>
    match lookupPattern g prePattern with
    | .error e => .error e
    | .ok pd =>
      match closerCand line offset prePattern pd s with
      | .error e => .error e
      | .ok (acc₁, s₁) =>
        match
          (match pd.children with
           | some cs => scanChildren g line offset pd.escape cs acc₁ s₁
           | none => .ok (acc₁, s₁)) with
        | .error e => .error e
        | .ok (acc₂, s₂) => finishStep pc line offset prePattern acc₂ s₂

/-- The `createLayers` function, fueled: repeat `scanStep` while the offset
is inside the line and a transition is found, collecting the layers. -/
def createLayersF {σ : Type} (g : Grammar) (pc : Hooks σ) :
    Nat → Str → Nat → TemplateState σ → Except ScanErr (List Layer × TemplateState σ)
  | 0, _, _, _ => .error .timeout
  | fuel + 1, line, offset, s =>
    if offset < line.length then
      match scanStep g pc line offset s with
      | .error e => .error e
      | .ok (none, s') => .ok ([], s')
      | .ok (some (layer, offset'), s') =>
        match createLayersF g pc fuel line offset' s' with
        | .error e => .error e
        | .ok (rest, s'') => .ok (layer :: rest, s'')
    else .ok ([], s)

/-- The `copyPatternContext` function: recursively copy the stack links
(the `pattern` field of each link — here the arena index — is carried over
unchanged, i.e. the pattern itself stays shared). -/
def copyPatternContext : List Nat → List Nat
  | [] => []
  | p :: t => p :: copyPatternContext t

/-- The `copyStateContext` function: recursively copy the embedded-mode
stack links, delegating each sub-state to the sub-mode's own `copyState`
capability (`subCopy`). -/
def copyStateContext {σ : Type} (subCopy : ModeId → σ → σ) :
    List (StateCtx σ) → List (StateCtx σ)
  | [] => []
  | c :: t => ⟨c.mode, subCopy c.mode c.state⟩ :: copyStateContext subCopy t

/-- The `cloneDeep` applied to the customs scratch: a structural deep copy
of the key/value entries. -/
def cloneDeepCustoms : List (Str × Bool) → List (Str × Bool)
  | [] => []
  | (k, v) :: t => (k, v) :: cloneDeepCustoms t

/-- The mode's `copyState` method: spread-copy, with `layers` rebuilt as a
fresh array (`[...state.layers || []]`, so an absent `layers` becomes an
empty list), the pattern context and embedded-mode context link-copied,
and `customs` deep-cloned. -/
def copyState {σ : Type} (subCopy : ModeId → σ → σ) (s : TemplateState σ) :
    TemplateState σ :=
  { s with
    layers := some (s.layers.getD [])
    patternContext := copyPatternContext s.patternContext
    stateContext := copyStateContext subCopy s.stateContext
    customs := cloneDeepCustoms s.customs }

/-- The mode's `startState` method: empty `textBefore`, the context stack
holding only the root pattern (arena index 0, i.e. `finalParserConfig`),
the initial embedded-mode stack built from the base mode, and empty
cache/customs. -/
def startState {σ : Type} (initialStateContext : List (StateCtx σ)) : TemplateState σ :=
  { textBefore := []
    patternContext := [0]
    stateContext := initialStateContext
    useRoot := false
    start := false
    layers := none
    regExpCache := []
    customs := [] }

/-- Key of the `justExitTemplate` custom flag. -/
def justExitKey : Str := "justExitTemplate".data

/-- Arena index of every pattern built by `createDefaultOptions`. -/
def rootId : Nat := 0
def singleQuoteId : Nat := 1
def doubleQuoteId : Nat := 2
def parenthesisId : Nat := 3
def bracketId : Nat := 4
def braceId : Nat := 5
def codeId : Nat := 6
def templateHeaderId : Nat := 7
def templateId : Nat := 8

/-- The default grammar built by `createDefaultOptions`, as an arena.  The
`children` array shared by the bracket-like patterns is
`[singleQuote, doubleQuote, parenthesis, bracket, brace]`; `parenthesis`,
`bracket` and `brace` cyclically contain it, `code` and `template` extend
it.  Index 0 is the root configuration produced by `defineMode` (its
`open`/`close` are stripped there, hence absent). -/
def defaultGrammar (baseMode codeMode : Option ModeId) : Grammar :=
  let quoteChildren : Option (List Nat) := none
  let basicChildren : List Nat :=
    [singleQuoteId, doubleQuoteId, parenthesisId, bracketId, braceId]
  [ { mode := baseMode, «open» := none, close := none, escape := none,
      children := some [singleQuoteId, doubleQuoteId, codeId, templateHeaderId, templateId],
      includePattern := false, patternStyles := none },
    { mode := none, «open» := some (.lit ['\'']), close := some (.lit ['\'']),
      escape := some (.lit ['\\']), children := quoteChildren,
      includePattern := false, patternStyles := none },
    { mode := none, «open» := some (.lit ['"']), close := some (.lit ['"']),
      escape := some (.lit ['\\']), children := quoteChildren,
      includePattern := false, patternStyles := none },
    { mode := none, «open» := some (.lit ['(']), close := some (.lit [')']),
      escape := none, children := some basicChildren,
      includePattern := false, patternStyles := none },
    { mode := none, «open» := some (.lit ['[']), close := some (.lit [']']),
      escape := none, children := some basicChildren,
      includePattern := false, patternStyles := none },
    { mode := none, «open» := some (.lit ['\x7b']), close := some (.lit ['\x7d']),
      escape := none, children := some basicChildren,
      includePattern := false, patternStyles := none },
    { mode := codeMode, «open» := some (.regex "#\x7b\\s*:?".data []), close := some (.lit ['\x7d']),
      escape := none, children := some basicChildren,
      includePattern := false,
      patternStyles := some (some "bracket cxj-code open".data, some "bracket cxj-code close".data) },
    { mode := some "cxj-template-flag".data, «open» := some (.lit "#[".data), close := some (.lit [']']),
      escape := none, children := none,
      includePattern := false,
      patternStyles := some (some "bracket cxj-template cxj-template-flag open".data,
        some "bracket cxj-template cxj-template-flag close".data) },
    { mode := baseMode, «open» := some (.callback .templateOpen), close := some (.lit [']']),
      escape := none, children := some (codeId :: basicChildren),
      includePattern := false,
      patternStyles := some (some "bracket cxj-template open".data,
        some "bracket cxj-template close".data) } ]

/-- The default `beforeEnter` hook of `createDefaultOptions`: clear the
`justExitTemplate` flag. -/
def defaultBeforeEnter {σ : Type} : HookFn σ := fun s _ =>
  { s with customs := setCustom s.customs justExitKey false }

/-- The default `afterExit` hook of `createDefaultOptions`: set the
`justExitTemplate` flag when the exited pattern is (by reference identity,
here arena index) the `template` or `templateHeader` pattern. -/
def defaultAfterExit {σ : Type} : HookFn σ := fun s i =>
  if i.pattern = templateId ∨ i.pattern = templateHeaderId then
    { s with customs := setCustom s.customs justExitKey true }
  else s

/-- Hook composition performed by `defineMode`: the default `beforeEnter`
and `afterExit` hooks run first, a caller-supplied hook runs after; the
caller's `afterEnter`/`beforeExit` pass through unchanged. -/
def finalHooks {σ : Type} (custom : Hooks σ) : Hooks σ :=
  { beforeEnter := some (fun s i =>
      runHook custom.beforeEnter (defaultBeforeEnter s i) i)
    afterEnter := custom.afterEnter
    beforeExit := custom.beforeExit
    afterExit := some (fun s i =>
      runHook custom.afterExit (defaultAfterExit s i) i) }

/-- The hook configuration in effect when the integrator supplies no hooks
of their own. -/
def defaultHooks {σ : Type} : Hooks σ :=
  finalHooks ⟨none, none, none, none⟩

/-- An all-absent hook configuration (used for grammars exercised without
lifecycle behavior). -/
def noHooks {σ : Type} : Hooks σ :=
  ⟨none, none, none, none⟩

/-- The host's per-line string stream: the backing string, the token start
and the cursor position (CodeMirror's `StringStream` with `lineStart = 0`). -/
structure Stream where
  string : Str
  start : Int
  pos : Int
  deriving DecidableEq, Repr

/-- CodeMirror `stream.sol()`. -/
def Stream.sol (st : Stream) : Bool :=
  st.pos = 0

/-- CodeMirror `stream.eol()`. -/
def Stream.eol (st : Stream) : Bool :=
  (st.string.length : Int) ≤ st.pos

/-- Environment of embedded sub-modes consumed by the dispatcher:
`subToken m` is `getMode(config, m).token` when the sub-mode has a
tokenizer (it consumes from the stream, may mutate its own state, and
returns a style), `subStart m st` is `CodeMirror.startState` of the
sub-mode (handed the stream for its indentation, when available). -/
structure ModeEnv (σ : Type) where
  subToken : ModeId → Option (σ → Stream → Option Str × σ × Stream)
  subStart : ModeId → Option Stream → σ

/-- JS truthiness of an optional mode identifier (an empty mode name is
falsy, like `null`). -/
def modeTruthy : Option ModeId → Bool
  | none => false
  | some [] => false
  | some (_ :: _) => true

/-- The `getLocalMode` helper: the mode of the top embedded-mode link. -/
def getLocalMode {σ : Type} (s : TemplateState σ) : Option ModeId :=
  (s.stateContext.head?).map StateCtx.mode

/-- The `pushStateContext` helper: enter a sub-mode, starting its state. -/
def pushStateContext {σ : Type} (env : ModeEnv σ) (s : TemplateState σ) (mode : ModeId)
    (stream : Option Stream) : TemplateState σ :=
  { s with stateContext := ⟨mode, env.subStart mode stream⟩ :: s.stateContext }

/-- The `popStateContext` helper; popping a `null` embedded-mode stack is a
JS `TypeError`. -/
def popStateContext {σ : Type} (s : TemplateState σ) : Except ScanErr (TemplateState σ) :=
  match s.stateContext with
  | [] => .error .crash
  | _ :: t => .ok { s with stateContext := t }

/-- The `syncState` function: push the entered pattern's mode on an opening
layer, pop on a closing layer of a pattern that declared a mode. -/
def syncState {σ : Type} (env : ModeEnv σ) (g : Grammar) (s : TemplateState σ)
    (stream : Stream) (layer : Layer) : Except ScanErr (TemplateState σ) :=
  match lookupPattern g layer.nextPattern, lookupPattern g layer.prePattern with
  | .error e, _ => .error e
  | _, .error e => .error e
  | .ok nextPd, .ok prePd =>
    if layer.«open» ∧ modeTruthy nextPd.mode then
      .ok (pushStateContext env s ((nextPd.mode).getD []) (some stream))
    else if ¬layer.«open» ∧ modeTruthy prePd.mode then
      popStateContext s
    else .ok s

/-- The `tokenUntil` function: delegate to the active sub-mode's tokenizer
(backing up past `until`), or advance the cursor to `until` unstyled;
when the cursor lands exactly on `until`, optionally synchronize the
embedded-mode stack and consume the pending layer. -/
def tokenUntil {σ : Type} (env : ModeEnv σ) (g : Grammar) (stream : Stream)
    (s : TemplateState σ) (until_ : Int) (shift syncStateWhenReach : Bool) :
    Except ScanErr (Option Str × Stream × TemplateState σ) :=
  let run : Option Str × Stream × TemplateState σ :=
    match s.stateContext with
    | ⟨m, sub⟩ :: rest =>
      match env.subToken m with
      | some f =>
        let (style, sub', stream') := f sub stream
        let stream'' :=
          if until_ < stream'.pos then { stream' with pos := until_ } else stream'
        (style, stream'', { s with stateContext := ⟨m, sub'⟩ :: rest })
      | none => (none, { stream with pos := until_ }, s)
    | [] => (none, { stream with pos := until_ }, s)
  match run with
  | (style, stream', s') =>
    let afterLayer : Except ScanErr (TemplateState σ) :=
      match s'.layers with
      | some (layer :: restLayers) =>
        if stream'.pos = until_ then
          match (if syncStateWhenReach then syncState env g s' stream' layer else .ok s') with
          | .error e => .error e
          | .ok s'' =>
            .ok (if shift then { s'' with layers := some restLayers } else s'')
        else .ok s'
      | _ => .ok s'
    match afterLayer with
    | .error e => .error e
    | .ok s'' =>
      let s''' :=
        if stream'.eol then { s'' with textBefore := s''.textBefore ++ ['\n'] } else s''
      .ok (style, stream', s''')

/-- The `tokenPattern` function: emit the declared open/close style for the
whole matched delimiter; reaching it without a pending layer, off the
layer's position, or without declared styles is the source's
`throw new Error('This is impossible!')`. -/
def tokenPattern {σ : Type} (env : ModeEnv σ) (g : Grammar) (stream : Stream)
    (s : TemplateState σ) : Except ScanErr (Option Str × Stream × TemplateState σ) :=
  match s.layers with
  | some (layer :: restLayers) =>
    match lookupPattern g (if layer.«open» then layer.nextPattern else layer.prePattern) with
    | .error e => .error e
    | .ok pd =>
      match pd.patternStyles with
      | none => .error .crash
      | some styles =>
        if ¬stream.pos = layer.pos then .error .crash
        else
          let s₁ := { s with useRoot := true }
          let stream' := { stream with pos := layer.pos + matchedLen layer.matched }
          match syncState env g s₁ stream' layer with
          | .error e => .error e
          | .ok s₂ =>
            let s₃ := { s₂ with layers := some restLayers }
            let s₄ :=
              if stream'.eol then { s₃ with textBefore := s₃.textBefore ++ ['\n'] } else s₃
            .ok (if layer.«open» then styles.1 else styles.2, stream', s₄)
  | _ => .error .crash

/-- The mode's `token` method: (re)compute the layer list at the start of a
line, then dispatch on the cursor's position relative to the next layer.
`fuel` bounds the embedded `createLayers` loop (a modelling artifact of
the source's unbounded loop). -/
def token {σ : Type} (env : ModeEnv σ) (g : Grammar) (pc : Hooks σ) (fuel : Nat)
    (stream : Stream) (s : TemplateState σ) :
    Except ScanErr (Option Str × Stream × TemplateState σ) :=
  let rescan : Except ScanErr (TemplateState σ) :=
    if ¬s.start ∨ stream.sol then
      let s₁ := { s with start := true, useRoot := false }
      match createLayersF g pc fuel stream.string stream.start.toNat s₁ with
      | .error e => .error e
      | .ok (layers, s₂) => .ok { s₂ with layers := some layers }
    else .ok s
  match rescan with
  | .error e => .error e
  | .ok s₁ =>
    match s₁.layers with
    | some (layer :: _) =>
      let endPos : Int := layer.pos + matchedLen layer.matched
      if stream.start < layer.pos then
        tokenUntil env g stream s₁ layer.pos false false
      else if stream.start = layer.pos then
        match lookupPattern g (if layer.«open» then layer.nextPattern else layer.prePattern) with
        | .error e => .error e
        | .ok pd =>
          if (pd.patternStyles).isSome then tokenPattern env g stream s₁
          else if layer.«open» ∧ pd.includePattern then
            match lookupPattern g layer.nextPattern with
            | .error e => .error e
            | .ok nextPd =>
              let s₂ :=
                if modeTruthy nextPd.mode then
                  pushStateContext env s₁ ((nextPd.mode).getD []) (some stream)
                else s₁
              tokenUntil env g stream s₂ endPos true false
          else if ¬layer.«open» ∧ ¬pd.includePattern then
            match lookupPattern g layer.prePattern with
            | .error e => .error e
            | .ok prePd =>
              match (if modeTruthy prePd.mode then popStateContext s₁ else .ok s₁) with
              | .error e => .error e
              | .ok s₂ => tokenUntil env g stream s₂ endPos true false
          else tokenUntil env g stream s₁ endPos true true
      else if stream.start < endPos then
        tokenUntil env g stream s₁ endPos true true
      else .error .crash
    | _ =>
      match s₁.stateContext with
      | ⟨m, sub⟩ :: rest =>
        match env.subToken m with
        | some f =>
          let (style, sub', stream') := f sub stream
          .ok (style, stream', { s₁ with stateContext := ⟨m, sub'⟩ :: rest })
        | none => .ok (none, { stream with pos := stream.string.length }, s₁)
      | [] => .ok (none, { stream with pos := stream.string.length }, s₁)

/-- Candidate update of the children loop, isolated as a pure function of
the previous candidate and one child's opener result (`none` = the child
has no truthy `open` and was skipped). -/
def selUpd (acc : Cand) (cid : Nat) (r : Option (Int × Option Str)) : Cand :=
  match r with
  | none => acc
  | some (q, m) =>
    if 0 ≤ q ∧ (acc.pos = -1 ∨ q < acc.pos) then ⟨.PUSH, q, m, cid⟩ else acc

/-- Pure fold of the children loop's candidate updates. -/
def selFold (acc : Cand) : List (Nat × Option (Int × Option Str)) → Cand
  | [] => acc
  | (c, r) :: t => selFold (selUpd acc c r) t

/-- Opener results of all children, threading the state exactly like
`scanChildren` but without the candidate bookkeeping; used to state
tie-break facts about the children loop. -/
def childResults {σ : Type} (g : Grammar) (line : Str) (offset : Nat)
    (escape : Option PatternLike) :
    List Nat → TemplateState σ →
    Except ScanErr (List (Option (Int × Option Str)) × TemplateState σ)
  | [], s => .ok ([], s)
  | cid :: rest, s =>
    match lookupPattern g cid with
    | .error e => .error e
    | .ok cd =>
      match cd.«open» with
      | none =>
        match childResults g line offset escape rest s with
        | .error e => .error e
        | .ok (rs, s') => .ok (none :: rs, s')
      | some op =>
        if patTruthy op then
          match matchWithEscapeF (innerFuel line) line offset op escape s with
          | .error e => .error e
          | .ok (r, s') =>
            match childResults g line offset escape rest s' with
            | .error e => .error e
            | .ok (rs, s'') => .ok (some r :: rs, s'')
        else
          match childResults g line offset escape rest s with
          | .error e => .error e
          | .ok (rs, s') => .ok (none :: rs, s')

/-- Replace the escape spec of one arena slot (all other fields and slots
untouched); used to state that a child's own escape is irrelevant to the
scan of its opener. -/
def setEscape : Grammar → Nat → Option PatternLike → Grammar
  | [], _, _ => []
  | pd :: t, 0, e => { pd with escape := e } :: t
  | pd :: t, j + 1, e => pd :: setEscape t j e

/-- A hook that cannot touch the pattern-context stack. -/
def HookPreservesPC {σ : Type} (h : Option (HookFn σ)) : Prop :=
  ∀ (s : TemplateState σ) (i : HookInfo), (runHook h s i).patternContext = s.patternContext

/-- All four configured hooks preserve the pattern-context stack (true of
the built-in default hooks, which only touch `customs`). -/
def HooksPreservePC {σ : Type} (pc : Hooks σ) : Prop :=
  HookPreservesPC pc.beforeEnter ∧ HookPreservesPC pc.afterEnter ∧
  HookPreservesPC pc.beforeExit ∧ HookPreservesPC pc.afterExit

/-- Matcher specs whose forward matches always consume at least one
character: literals and the built-in callback (regexps can match the empty
string). -/
def litOrCb : PatternLike → Bool
  | .lit _ => true
  | .callback _ => true
  | .regex _ _ => false

/-- Grammars whose `open`/`close` specs are all literals or built-in
callbacks. -/
def goodGrammarB (g : Grammar) : Bool :=
  g.all (fun pd => (pd.«open»).all litOrCb && (pd.close).all litOrCb)

/-- Well-formedness of a scan-iteration candidate: either nothing was
found yet, or the candidate's position/matched text lie within the line at
or after the current offset and consume at least one character. -/
def CandOk (line : Str) (offset : Nat) (acc : Cand) : Prop :=
  acc.found = .NONE ∨
  (0 ≤ acc.pos ∧ offset ≤ acc.pos.toNat ∧ 1 ≤ matchedLen acc.matched ∧
    acc.pos.toNat + matchedLen acc.matched ≤ line.length)

/-- Termination of a scan in the fueled model: some fuel suffices. -/
def ScanTerminates {σ : Type} (g : Grammar) (pc : Hooks σ) (line : Str) (offset : Nat)
    (s : TemplateState σ) : Prop :=
  ∃ fuel, ¬createLayersF g pc fuel line offset s = .error .timeout

instance {ε α : Type} [DecidableEq ε] [DecidableEq α] : DecidableEq (Except ε α) :=
  fun a b =>
    match a, b with
    | .ok x, .ok y =>
      if h : x = y then .isTrue (by rw [h]) else .isFalse (by simp [h])
    | .error x, .error y =>
      if h : x = y then .isTrue (by rw [h]) else .isFalse (by simp [h])
    | .ok _, .error _ => .isFalse (by simp)
    | .error _, .ok _ => .isFalse (by simp)

/-- Fresh initial state over a trivial sub-mode state type, used by the
concrete evaluations. -/
def w0 : TemplateState Unit := startState []

/-- The demo harness's grammar instance: default options with an SQL base
mode and a Groovy code mode. -/
def sqlGroovyGrammar : Grammar :=
  defaultGrammar (some "sql".data) (some "groovy".data)

/-- Test grammar for the tie-break claims: pattern 1 (the active one)
closes with `)` and has children 2 (opener `)`, tying with the closer) and
3 (opener `(`). -/
def tieGrammar : Grammar :=
  [ { mode := none, «open» := none, close := none, escape := none,
      children := some [1], includePattern := false, patternStyles := none },
    { mode := none, «open» := some (.lit ['(']), close := some (.lit [')']),
      escape := none, children := some [2, 3], includePattern := false, patternStyles := none },
    { mode := none, «open» := some (.lit [')']), close := none, escape := none,
      children := none, includePattern := false, patternStyles := none },
    { mode := none, «open» := some (.lit ['(']), close := none, escape := none,
      children := none, includePattern := false, patternStyles := none } ]

/-- Variant of `tieGrammar` where both children open with `(`, to observe
the declaration-order tie-break between openers. -/
def tieGrammar₂ : Grammar :=
  [ { mode := none, «open» := none, close := none, escape := none,
      children := some [1], includePattern := false, patternStyles := none },
    { mode := none, «open» := some (.lit ['(']), close := some (.lit [')']),
      escape := none, children := some [2, 3], includePattern := false, patternStyles := none },
    { mode := none, «open» := some (.lit ['(']), close := none, escape := none,
      children := none, includePattern := false, patternStyles := none },
    { mode := none, «open» := some (.lit ['(']), close := none, escape := none,
      children := none, includePattern := false, patternStyles := none } ]

/-- A state already inside pattern 1 of the test grammars. -/
def sInner : TemplateState Unit :=
  { startState [] with patternContext := [1, 0] }

/-- Grammar whose child opener is a regexp matching the empty string and
whose child contains itself: a zero-width transition that never advances
the offset. -/
def loopGrammar : Grammar :=
  [ { mode := none, «open» := none, close := none, escape := none,
      children := some [1], includePattern := false, patternStyles := none },
    { mode := none, «open» := some (.regex [] []), close := none, escape := none,
      children := some [1], includePattern := false, patternStyles := none } ]

/-- Minimal grammar for the dispatcher claims: one child delimited by
parentheses, with neither `patternStyles` nor `includePattern`. -/
def plainParenGrammar : Grammar :=
  [ { mode := none, «open» := none, close := none, escape := none,
      children := some [1], includePattern := false, patternStyles := none },
    { mode := none, «open» := some (.lit ['(']), close := some (.lit [')']),
      escape := none, children := none, includePattern := false, patternStyles := none } ]

/-- Grammar for the escape-scoping claim: the enclosing pattern 0 declares
escape `!`, its child 1 opens with `[` and declares its own (different)
escape `?`. -/
def escScopeGrammar : Grammar :=
  [ { mode := none, «open» := none, close := none, escape := some (.lit ['!']),
      children := some [1], includePattern := false, patternStyles := none },
    { mode := none, «open» := some (.lit ['[']), close := some (.lit [']']),
      escape := some (.lit ['?']), children := none, includePattern := false,
      patternStyles := none } ]

/-- The escape-scoping grammar with the enclosing escape removed. -/
def escScopeGrammarNoEsc : Grammar :=
  [ { mode := none, «open» := none, close := none, escape := none,
      children := some [1], includePattern := false, patternStyles := none },
    { mode := none, «open» := some (.lit ['[']), close := some (.lit [']']),
      escape := some (.lit ['?']), children := none, includePattern := false,
      patternStyles := none } ]

/-- A sub-mode environment with no tokenizers and trivial sub-states. -/
def env0 : ModeEnv Unit :=
  ⟨fun _ => none, fun _ _ => ()⟩

/-- Grammar for the escape-exhaustion claim: the active pattern 1 closes
with `)` under escape `!` and has an (empty, but present) children
array. -/
def exhaustGrammar : Grammar :=
  [ { mode := none, «open» := none, close := none, escape := none,
      children := some [1], includePattern := false, patternStyles := none },
    { mode := none, «open» := some (.lit ['(']), close := some (.lit [')']),
      escape := some (.lit ['!']), children := some [], includePattern := false,
      patternStyles := none } ]

/-! ## Verification -/

theorem copyPatternContext_eq (l : List Nat) : copyPatternContext l = l := by
  induction l with
  | nil => rfl
  | cons p t ih => simp [copyPatternContext, ih]

theorem cloneDeepCustoms_eq (l : List (Str × Bool)) : cloneDeepCustoms l = l := by
  induction l with
  | nil => rfl
  | cons p t ih => cases p; simp [cloneDeepCustoms, ih]

theorem copyStateContext_eq_map {σ : Type} (subCopy : ModeId → σ → σ)
    (l : List (StateCtx σ)) :
    copyStateContext subCopy l = l.map (fun c => ⟨c.mode, subCopy c.mode c.state⟩) := by
  induction l with
  | nil => rfl
  | cons c t ih => simp [copyStateContext, ih]

/-- C6: `copyState` produces an independent snapshot: the pattern-context
links are copied while each link's pattern (arena index, i.e. the shared
reference) is carried over unchanged, `customs` is deep-cloned to a
structurally equal map, embedded-mode states are rebuilt by delegating
each link's state to the sub-mode's own `copyState` capability, and the
remaining fields (including the spread-copied scratch fields and the
freshly rebuilt `layers` array) are preserved.  In this pure embedding
the copy is a separate value, so subsequently pushing/popping contexts or
mutating customs on either state cannot change the other. -/
theorem c6_copy_state_snapshot {σ : Type} (subCopy : ModeId → σ → σ)
    (s : TemplateState σ) :
    (copyState subCopy s).patternContext = s.patternContext ∧
    (copyState subCopy s).customs = s.customs ∧
    (copyState subCopy s).stateContext =
      s.stateContext.map (fun c => ⟨c.mode, subCopy c.mode c.state⟩) ∧
    (copyState subCopy s).layers = some (s.layers.getD []) ∧
    (copyState subCopy s).textBefore = s.textBefore ∧
    (copyState subCopy s).regExpCache = s.regExpCache ∧
    (copyState subCopy s).useRoot = s.useRoot ∧
    (copyState subCopy s).start = s.start := by
  refine ⟨?_, ?_, ?_, rfl, rfl, rfl, rfl, rfl⟩
  · exact copyPatternContext_eq s.patternContext
  · exact cloneDeepCustoms_eq s.customs
  · exact copyStateContext_eq_map subCopy s.stateContext

/-- C5: layer computation is deterministic: `createLayers` run from two
identical copies of a state (same grammar, hooks, fuel, line and offset)
returns identical layer lists and identical result states. -/
theorem c5_deterministic {σ : Type} (g : Grammar) (pc : Hooks σ) (fuel : Nat)
    (line : Str) (offset : Nat) (s₁ s₂ : TemplateState σ) (h : s₁ = s₂) :
    createLayersF g pc fuel line offset s₁ = createLayersF g pc fuel line offset s₂ := by
  rw [h]

theorem c5_deterministic_witness :
    w0 = w0 ∧
    createLayersF sqlGroovyGrammar defaultHooks 20 "w #[if] x".data 0 w0 =
      createLayersF sqlGroovyGrammar defaultHooks 20 "w #[if] x".data 0 w0 :=
  ⟨rfl, c5_deterministic sqlGroovyGrammar defaultHooks 20 "w #[if] x".data 0 w0 w0 rfl⟩

theorem checkEscape_lit {σ : Type} (s : TemplateState σ) (line : Str) (pos : Nat)
    (c : Char) (es : Str) :
    checkEscape s line pos (some (.lit (c :: es))) = .ok (jsEndsWith line (c :: es) pos, s) := by
  have htr : specTruthy (some (.lit (c :: es))) = true := rfl
  simp only [checkEscape, htr, Bool.not_true, Bool.false_eq_true, if_false, jsMatch]
  by_cases h : jsEndsWith line (c :: es) pos
  · have hsuf : (c :: es) <:+ line.take pos := by
      have h2 : List.isSuffixOf (c :: es) (line.take pos) = true := h
      exact List.isSuffixOf_iff_suffix.mp h2
    have hlen : (c :: es).length ≤ pos := by
      have h1 := hsuf.length_le
      have h2 : (line.take pos).length ≤ pos := by
        simp [List.length_take]
      omega
    simp only [List.length_cons] at hlen
    simp [h, Except.map]
    omega
  · simp [h, Except.map]

/-- C2 counterexample: with closer `)` and escape `!`, the occurrence of
the closer at position 2 of `!!)` is preceded by an escaped escape, yet
escape-aware matching still skips it and reports no match — the claim
that the doubly-escaped occurrence is returned as a match fails. -/
theorem c2_counterexample :
    matchWithEscapeF 9 "!!)".data 0 (.lit [')']) (some (.lit ['!'])) w0 =
      .ok ((-1, none), w0) ∧
    ¬matchWithEscapeF 9 "!!)".data 0 (.lit [')']) (some (.lit ['!'])) w0 =
      .ok ((2, some [')']), w0) := by
  decide

/-- C2 (amended): escape-aware matching performs a single suffix lookback
with no parity counting: an occurrence of the closer immediately preceded
by one escape occurrence is skipped, an occurrence preceded by a doubled
escape is likewise skipped, and an occurrence not immediately preceded by
the escape is returned (also after skipping earlier escaped ones); the
lookback is exactly a suffix test of the escape ending at the match
position. -/
theorem c2_single_lookback_escape :
    matchWithEscapeF 9 "!)".data 0 (.lit [')']) (some (.lit ['!'])) w0 =
      .ok ((-1, none), w0) ∧
    matchWithEscapeF 9 "!!)".data 0 (.lit [')']) (some (.lit ['!'])) w0 =
      .ok ((-1, none), w0) ∧
    matchWithEscapeF 9 ")".data 0 (.lit [')']) (some (.lit ['!'])) w0 =
      .ok ((0, some [')']), w0) ∧
    matchWithEscapeF 9 "a!)b)".data 0 (.lit [')']) (some (.lit ['!'])) w0 =
      .ok ((4, some [')']), w0) ∧
    (∀ (σ : Type) (s : TemplateState σ) (line : Str) (pos : Nat) (c : Char) (es : Str),
      checkEscape s line pos (some (.lit (c :: es))) = .ok (jsEndsWith line (c :: es) pos, s)) :=
  ⟨by decide, by decide, by decide, by decide,
    fun _ s line pos c es => checkEscape_lit s line pos c es⟩

/-- C3 counterexample: the closer `/x$/` used in forward-search mode
matches the `x` at position 0 of the line `xa`, a mid-line occurrence
(the match does not end at the line's end), because normalization strips
the `$` anchor for forward searches. -/
theorem c3_counterexample :
    resultOf (jsMatch "xa".data 0 .DEFAULT (.regex "x$".data []) w0) =
      .ok (0, some ['x']) ∧
    ¬(0 + (['x'] : Str).length = ("xa".data).length) := by
  decide

/-- C3 (amended): in forward-search mode the normalizer strips the end
anchor, so `/x$/` matches exactly like `/x/` — including mid-line
occurrences of `x`; the `$` anchor is enforced only in suffix-check mode,
where `/x$/` matches exactly the occurrence ending at the given
position. -/
theorem c3_anchor_normalization :
    (∀ (σ : Type) (line : Str) (position : Nat) (s : TemplateState σ),
      jsMatch line position .DEFAULT (.regex "x$".data []) s =
      jsMatch line position .DEFAULT (.regex "x".data []) s) ∧
    resultOf (jsMatch "xa".data 0 .DEFAULT (.regex "x$".data []) w0) =
      .ok (0, some ['x']) ∧
    resultOf (jsMatch "ax".data 2 .SUFFIX (.regex "x$".data []) w0) =
      .ok (1, some ['x']) ∧
    resultOf (jsMatch "xa".data 2 .SUFFIX (.regex "x$".data []) w0) =
      .ok (-1, none) :=
  ⟨fun _ _ _ _ => rfl, by decide, by decide, by decide⟩

theorem selFold_append (acc : Cand) (l₁ l₂ : List (Nat × Option (Int × Option Str))) :
    selFold acc (l₁ ++ l₂) = selFold (selFold acc l₁) l₂ := by
  induction l₁ generalizing acc with
  | nil => rfl
  | cons p t ih =>
    obtain ⟨c, r⟩ := p
    show selFold (selUpd acc c r) (t ++ l₂) = selFold (selFold (selUpd acc c r) t) l₂
    exact ih _

theorem selFold_keep (acc : Cand) (l : List (Nat × Option (Int × Option Str)))
    (hpos : 0 ≤ acc.pos)
    (h : ∀ p ∈ l, ∀ q m, p.2 = some (q, m) → 0 ≤ q → acc.pos ≤ q) :
    selFold acc l = acc := by
  induction l with
  | nil => rfl
  | cons p t ih =>
    obtain ⟨c, r⟩ := p
    have hupd : selUpd acc c r = acc := by
      cases r with
      | none => rfl
      | some qm =>
        obtain ⟨q, m⟩ := qm
        have hge := h (c, some (q, m)) (List.mem_cons_self _ _) q m rfl
        simp only [selUpd]
        rw [if_neg]
        rintro ⟨hq, hor⟩
        rcases hor with h1 | h2
        · omega
        · have := hge hq; omega
    rw [selFold, hupd]
    exact ih (fun p hp => h p (List.mem_cons_of_mem _ hp))

theorem selUpd_pos_bound (acc : Cand) (c : Nat) (r : Option (Int × Option Str)) (q : Int)
    (hacc : acc.pos = -1 ∨ q < acc.pos)
    (hr : ∀ q' m', r = some (q', m') → 0 ≤ q' → q < q') :
    (selUpd acc c r).pos = -1 ∨ q < (selUpd acc c r).pos := by
  cases r with
  | none => exact hacc
  | some qm =>
    obtain ⟨q', m'⟩ := qm
    simp only [selUpd]
    by_cases hcond : 0 ≤ q' ∧ (acc.pos = -1 ∨ q' < acc.pos)
    · rw [if_pos hcond]
      exact Or.inr (hr q' m' rfl hcond.1)
    · rw [if_neg hcond]
      exact hacc

theorem selFold_first_min (acc : Cand) (c : Nat) (q : Int) (m : Option Str)
    (l₁ l₂ : List (Nat × Option (Int × Option Str)))
    (hq : 0 ≤ q)
    (hacc : acc.pos = -1 ∨ q < acc.pos)
    (h₁ : ∀ p ∈ l₁, ∀ q' m', p.2 = some (q', m') → 0 ≤ q' → q < q')
    (h₂ : ∀ p ∈ l₂, ∀ q' m', p.2 = some (q', m') → 0 ≤ q' → q ≤ q') :
    selFold acc (l₁ ++ (c, some (q, m)) :: l₂) = ⟨.PUSH, q, m, c⟩ := by
  induction l₁ generalizing acc with
  | nil =>
    simp only [List.nil_append, selFold]
    have hupd : selUpd acc c (some (q, m)) = ⟨.PUSH, q, m, c⟩ := by
      simp only [selUpd]
      rw [if_pos ⟨hq, hacc⟩]
    rw [hupd]
    exact selFold_keep _ l₂ hq h₂
  | cons p t ih =>
    obtain ⟨c', r'⟩ := p
    simp only [List.cons_append, selFold]
    refine ih (selUpd acc c' r') ?_ ?_
    · exact selUpd_pos_bound acc c' r' q hacc
        (fun q' m' hr hq' => h₁ (c', r') (List.mem_cons_self _ _) q' m' hr hq')
    · exact fun p hp => h₁ p (List.mem_cons_of_mem _ hp)

theorem scanChildren_eq_childResults {σ : Type} (g : Grammar) (line : Str) (offset : Nat)
    (esc : Option PatternLike) (cs : List Nat) (acc : Cand) (s : TemplateState σ) :
    scanChildren g line offset esc cs acc s =
      match childResults g line offset esc cs s with
      | .error e => .error e
      | .ok (rs, s') => .ok (selFold acc (cs.zip rs), s') := by
  induction cs generalizing acc s with
  | nil => rfl
  | cons cid rest ih =>
    simp only [scanChildren, childResults]
    cases hlk : lookupPattern g cid with
    | error e => rfl
    | ok cd =>
      simp only []
      cases hop : cd.«open» with
      | none =>
        simp only [hop]
        rw [ih]
        cases hcr : childResults g line offset esc rest s with
        | error e => rfl
        | ok pr =>
          obtain ⟨rs, s'⟩ := pr
          rfl
      | some op =>
        simp only [hop]
        by_cases ht : patTruthy op = true
        · rw [if_pos ht, if_pos ht]
          cases hm : matchWithEscapeF (innerFuel line) line offset op esc s with
          | error e => rfl
          | ok pr =>
            obtain ⟨r, s'⟩ := pr
            obtain ⟨q, mm⟩ := r
            dsimp only
            rw [ih]
            cases hcr : childResults g line offset esc rest s' with
            | error e => rfl
            | ok pr' =>
              obtain ⟨rs, s''⟩ := pr'
              rfl
        · rw [if_neg ht, if_neg ht]
          rw [ih]
          cases hcr : childResults g line offset esc rest s with
          | error e => rfl
          | ok pr =>
            obtain ⟨rs, s'⟩ := pr
            rfl

theorem getCachedRegExpM_state {σ : Type} (s : TemplateState σ) (source flags : Str)
    (anchor : AnchorMode) (global : Bool) (r : SimpleRegex) (s' : TemplateState σ)
    (h : getCachedRegExpM s source flags anchor global = .ok (r, s')) :
    s' = { s with regExpCache := s'.regExpCache } := by
  simp only [getCachedRegExpM] at h
  cases hp : parseRegex (normalizeSource source anchor) with
  | none => rw [hp] at h; exact absurd h (by simp)
  | some r' =>
    rw [hp] at h
    dsimp only at h
    by_cases hmem :
        regexKey (normalizeSource source anchor) (normalizeFlags flags global) ∈ s.regExpCache
    · rw [if_pos hmem] at h
      cases h
      rfl
    · rw [if_neg hmem] at h
      cases h
      rfl

theorem jsMatch_state {σ : Type} (line : Str) (position : Nat) (mode : MatchMode)
    (p : PatternLike) (s : TemplateState σ) (r : Int × Option Str) (s' : TemplateState σ)
    (h : jsMatch line position mode p s = .ok (r, s')) :
    s' = { s with regExpCache := s'.regExpCache } := by
  cases p with
  | lit str =>
    cases mode <;> simp only [jsMatch] at h <;> cases h <;> rfl
  | callback c =>
    simp only [jsMatch] at h
    cases h
    rfl
  | regex src flags =>
    cases mode with
    | DEFAULT =>
      simp only [jsMatch] at h
      cases hg : getCachedRegExpM s src flags .NONE true with
      | error e => rw [hg] at h; exact absurd h (by simp [Except.map])
      | ok pr =>
        obtain ⟨rg, s₁⟩ := pr
        rw [hg] at h
        simp only [Except.map] at h
        cases h
        exact getCachedRegExpM_state s src flags .NONE true rg _ hg
    | SUFFIX =>
      simp only [jsMatch] at h
      cases hg : getCachedRegExpM s src flags .END false with
      | error e => rw [hg] at h; exact absurd h (by simp [Except.map])
      | ok pr =>
        obtain ⟨rg, s₁⟩ := pr
        rw [hg] at h
        simp only [Except.map] at h
        cases h
        exact getCachedRegExpM_state s src flags .END false rg _ hg

theorem checkEscape_state {σ : Type} (s : TemplateState σ) (line : Str) (offset : Nat)
    (escape : Option PatternLike) (b : Bool) (s' : TemplateState σ)
    (h : checkEscape s line offset escape = .ok (b, s')) :
    s' = { s with regExpCache := s'.regExpCache } := by
  simp only [checkEscape] at h
  split at h
  · cases h; rfl
  · cases escape with
    | none => cases h; rfl
    | some e =>
      dsimp only at h
      cases hm : jsMatch line offset .SUFFIX e s with
      | error er => rw [hm] at h; exact absurd h (by simp [Except.map])
      | ok pr =>
        obtain ⟨⟨pos, m⟩, s₁⟩ := pr
        rw [hm] at h
        simp only [Except.map] at h
        cases h
        exact jsMatch_state line offset .SUFFIX e s _ _ hm

theorem mweLoop_state {σ : Type} (line : Str) (p : PatternLike) (escape : Option PatternLike) :
    ∀ (fuel : Nat) (pos : Int) (m : Option Str) (s : TemplateState σ)
      (r : Int × Option Str) (s' : TemplateState σ),
      mweLoop line p escape fuel pos m s = .ok (r, s') →
      s' = { s with regExpCache := s'.regExpCache } := by
  intro fuel
  induction fuel with
  | zero =>
    intro pos m s r s' h
    simp only [mweLoop] at h
    by_cases hpos : pos = -1
    · rw [if_pos hpos] at h; cases h; rfl
    · rw [if_neg hpos] at h
      cases hce : checkEscape s line pos.toNat escape with
      | error e => rw [hce] at h; exact absurd h (by simp)
      | ok pr =>
        obtain ⟨escaped, s₁⟩ := pr
        rw [hce] at h
        cases escaped with
        | true =>
          simp only [Bool.not_true, if_false] at h
          exact absurd h (by simp)
        | false =>
          simp only [Bool.not_false, if_true] at h
          cases h
          exact checkEscape_state s line pos.toNat escape _ _ hce
  | succ fuel ih =>
    intro pos m s r s' h
    rw [mweLoop.eq_def] at h
    dsimp only at h
    by_cases hpos : pos = -1
    · rw [if_pos hpos] at h; cases h; rfl
    · rw [if_neg hpos] at h
      cases hce : checkEscape s line pos.toNat escape with
      | error e => rw [hce] at h; exact absurd h (by simp)
      | ok pr =>
        obtain ⟨escaped, s₁⟩ := pr
        rw [hce] at h
        have hce' := checkEscape_state s line pos.toNat escape escaped s₁ hce
        cases escaped with
        | true =>
          simp only [Bool.not_true, if_false] at h
          cases hjm : jsMatch line (pos.toNat + matchedLen m) .DEFAULT p s₁ with
          | error e => rw [hjm] at h; exact absurd h (by simp)
          | ok pr' =>
            obtain ⟨⟨pos', m'⟩, s₂⟩ := pr'
            rw [hjm] at h
            have hjm' := jsMatch_state line (pos.toNat + matchedLen m) .DEFAULT p s₁ _ s₂ hjm
            have hrec := ih pos' m' s₂ r s' h
            rw [hjm'] at hrec
            rw [hce'] at hrec
            exact hrec
        | false =>
          simp only [Bool.not_false, if_true] at h
          cases h
          exact hce'

theorem matchWithEscapeF_state {σ : Type} (fuel : Nat) (line : Str) (position : Nat)
    (p : PatternLike) (escape : Option PatternLike) (s : TemplateState σ)
    (r : Int × Option Str) (s' : TemplateState σ)
    (h : matchWithEscapeF fuel line position p escape s = .ok (r, s')) :
    s' = { s with regExpCache := s'.regExpCache } := by
  simp only [matchWithEscapeF] at h
  cases hjm : jsMatch line position .DEFAULT p s with
  | error e => rw [hjm] at h; exact absurd h (by simp)
  | ok pr =>
    obtain ⟨⟨pos, m⟩, s₁⟩ := pr
    rw [hjm] at h
    have h₁ := jsMatch_state line position .DEFAULT p s _ s₁ hjm
    have h₂ := mweLoop_state line p escape fuel pos m s₁ r s' h
    rw [h₁] at h₂
    exact h₂

theorem childResults_state {σ : Type} (g : Grammar) (line : Str) (offset : Nat)
    (esc : Option PatternLike) :
    ∀ (cs : List Nat) (s : TemplateState σ) (rs : List (Option (Int × Option Str)))
      (s' : TemplateState σ),
      childResults g line offset esc cs s = .ok (rs, s') →
      s' = { s with regExpCache := s'.regExpCache } := by
  intro cs
  induction cs with
  | nil =>
    intro s rs s' h
    simp only [childResults] at h
    cases h
    rfl
  | cons cid rest ih =>
    intro s rs s' h
    simp only [childResults] at h
    cases hlk : lookupPattern g cid with
    | error e => rw [hlk] at h; exact absurd h (by simp)
    | ok cd =>
      rw [hlk] at h
      dsimp only at h
      cases hop : cd.«open» with
      | none =>
        rw [hop] at h
        dsimp only at h
        cases hcr : childResults g line offset esc rest s with
        | error e => rw [hcr] at h; exact absurd h (by simp)
        | ok pr =>
          obtain ⟨rs₁, s₁⟩ := pr
          rw [hcr] at h
          cases h
          exact ih s rs₁ _ hcr
      | some op =>
        rw [hop] at h
        dsimp only at h
        by_cases ht : patTruthy op = true
        · rw [if_pos ht] at h
          cases hm : matchWithEscapeF (innerFuel line) line offset op esc s with
          | error e => rw [hm] at h; exact absurd h (by simp)
          | ok pr =>
            obtain ⟨r, s₁⟩ := pr
            obtain ⟨q, mm⟩ := r
            rw [hm] at h
            dsimp only at h
            have h₁ := matchWithEscapeF_state (innerFuel line) line offset op esc s _ s₁ hm
            cases hcr : childResults g line offset esc rest s₁ with
            | error e => rw [hcr] at h; exact absurd h (by simp)
            | ok pr' =>
              obtain ⟨rs₁, s₂⟩ := pr'
              rw [hcr] at h
              cases h
              have h₂ := ih s₁ rs₁ _ hcr
              rw [h₁] at h₂
              exact h₂
        · rw [if_neg ht] at h
          cases hcr : childResults g line offset esc rest s with
          | error e => rw [hcr] at h; exact absurd h (by simp)
          | ok pr =>
            obtain ⟨rs₁, s₁⟩ := pr
            rw [hcr] at h
            cases h
            exact ih s rs₁ _ hcr

theorem getCurrentPattern_eq {σ : Type} (s : TemplateState σ) (p : Nat) (t : List Nat)
    (h : s.patternContext = p :: t) : getCurrentPattern s = .ok p := by
  simp [getCurrentPattern, h]

theorem finishStep_none {σ : Type} (pc : Hooks σ) (line : Str) (offset : Nat)
    (prePattern : Nat) (pos : Int) (m : Option Str) (nx : Nat) (s : TemplateState σ) :
    finishStep pc line offset prePattern ⟨.NONE, pos, m, nx⟩ s =
      .ok (none, { s with textBefore := s.textBefore ++ line.drop offset }) := rfl

theorem finishStep_push {σ : Type} (pc : Hooks σ) (line : Str) (offset : Nat)
    (prePattern : Nat) (q : Int) (m : Option Str) (ck : Nat) (s : TemplateState σ) :
    ∃ s', finishStep pc line offset prePattern ⟨.PUSH, q, m, ck⟩ s =
      .ok (some (⟨q, m, true, prePattern, ck⟩, q.toNat + matchedLen m), s') :=
  ⟨_, rfl⟩

theorem finishStep_pop {σ : Type} (pc : Hooks σ) (line : Str) (offset : Nat)
    (prePattern : Nat) (cp : Int) (cm : Option Str) (nx : Nat) (s : TemplateState σ)
    (p₂ : Nat) (t : List Nat)
    (hbx : HookPreservesPC pc.beforeExit) (hax : HookPreservesPC pc.afterExit)
    (hpcs : s.patternContext = prePattern :: p₂ :: t) :
    ∃ s', finishStep pc line offset prePattern ⟨.POP, cp, cm, nx⟩ s =
      .ok (some (⟨cp, cm, false, prePattern, p₂⟩, cp.toNat + matchedLen cm), s') := by
  have key : ∀ (i₁ i₂ : HookInfo) (s₃ : TemplateState σ),
      s₃.patternContext = prePattern :: p₂ :: t →
      getCurrentPattern (runHook pc.afterExit (popPatternContext (runHook pc.beforeExit s₃ i₁)) i₂) =
        .ok p₂ := by
    intro i₁ i₂ s₃ h₃
    apply getCurrentPattern_eq _ _ t
    rw [hax]
    show (runHook pc.beforeExit s₃ i₁).patternContext.tail = p₂ :: t
    rw [hbx, h₃]
    rfl
  simp only [finishStep]
  rw [key _ _ _ (by simpa using hpcs)]
  exact ⟨_, rfl⟩

theorem scanStep_assemble {σ : Type} (g : Grammar) (pc : Hooks σ) (line : Str)
    (offset : Nat) (s : TemplateState σ) (prePat : Nat) (pd : PatternData)
    (acc₁ acc₂ : Cand) (s₁ s₂ : TemplateState σ) (cs : List Nat)
    (hcur : getCurrentPattern s = .ok prePat)
    (hpd : lookupPattern g prePat = .ok pd)
    (hcc : closerCand line offset prePat pd s = .ok (acc₁, s₁))
    (hch : pd.children = some cs)
    (hsc : scanChildren g line offset pd.escape cs acc₁ s₁ = .ok (acc₂, s₂)) :
    scanStep g pc line offset s = finishStep pc line offset prePat acc₂ s₂ := by
  simp only [scanStep, hcur, hpd, hcc, hch, hsc]

/-- C1: the transition chosen by one scan iteration is the candidate with
the smallest match position.  With the current pattern's closer matching
at `cp`: (i) when no child opener matches strictly earlier (in particular
on a tie at the same position), the closer wins and a closing (POP) layer
is recorded; (ii) when some child opener matches strictly earlier, the
first child in declaration order among those attaining the earliest such
position wins and an opening (PUSH) layer for exactly that child is
recorded. -/
theorem c1_nearest_transition_tie_break {σ : Type} (g : Grammar) (pc : Hooks σ)
    (line : Str) (offset : Nat) (s : TemplateState σ)
    (prePat p₂ : Nat) (rest : List Nat) (pd : PatternData) (close : PatternLike)
    (cp : Int) (cm : Option Str) (s₁ s₂ : TemplateState σ) (cs : List Nat)
    (rs : List (Option (Int × Option Str)))
    (hpc : HooksPreservePC pc)
    (hctx : s.patternContext = prePat :: p₂ :: rest)
    (hpd : lookupPattern g prePat = .ok pd)
    (hcl : pd.close = some close) (hclT : patTruthy close = true)
    (hclM : matchWithEscapeF (innerFuel line) line offset close pd.escape s =
      .ok ((cp, cm), s₁))
    (hcp : 0 ≤ cp)
    (hch : pd.children = some cs)
    (hcr : childResults g line offset pd.escape cs s₁ = .ok (rs, s₂)) :
    ((∀ r ∈ rs, ∀ q m, r = some (q, m) → 0 ≤ q → cp ≤ q) →
      ∃ s', scanStep g pc line offset s =
        .ok (some (⟨cp, cm, false, prePat, p₂⟩, cp.toNat + matchedLen cm), s')) ∧
    (∀ (ck : Nat) (q : Int) (m : Option Str)
        (z₁ z₂ : List (Nat × Option (Int × Option Str))),
      cs.zip rs = z₁ ++ (ck, some (q, m)) :: z₂ →
      0 ≤ q → q < cp →
      (∀ p ∈ z₁, ∀ q' m', p.2 = some (q', m') → 0 ≤ q' → q < q') →
      (∀ p ∈ z₂, ∀ q' m', p.2 = some (q', m') → 0 ≤ q' → q ≤ q') →
      ∃ s', scanStep g pc line offset s =
        .ok (some (⟨q, m, true, prePat, ck⟩, q.toNat + matchedLen m), s')) := by
  have hcur : getCurrentPattern s = .ok prePat := getCurrentPattern_eq s prePat _ hctx
  have hcloser : closerCand line offset prePat pd s = .ok (⟨.POP, cp, cm, prePat⟩, s₁) := by
    simp only [closerCand, hcl, hclT, if_true, hclM]
    rw [if_pos hcp]
  have hs1 := matchWithEscapeF_state (innerFuel line) line offset close pd.escape s _ _ hclM
  have hs2 := childResults_state g line offset pd.escape cs s₁ rs s₂ hcr
  have hpc2 : s₂.patternContext = prePat :: p₂ :: rest := by
    rw [hs2, hs1]
    exact hctx
  constructor
  · intro hall
    have hsel : selFold ⟨.POP, cp, cm, prePat⟩ (cs.zip rs) = ⟨.POP, cp, cm, prePat⟩ :=
      selFold_keep _ _ hcp
        (fun p hp q m hpm hq => hall p.2 (List.of_mem_zip hp).2 q m hpm hq)
    have hchildren :
        scanChildren g line offset pd.escape cs ⟨.POP, cp, cm, prePat⟩ s₁ =
          .ok (⟨.POP, cp, cm, prePat⟩, s₂) := by
      rw [scanChildren_eq_childResults, hcr]
      dsimp only
      rw [hsel]
    rw [scanStep_assemble g pc line offset s prePat pd _ _ s₁ s₂ cs hcur hpd hcloser hch
      hchildren]
    exact finishStep_pop pc line offset prePat cp cm prePat s₂ p₂ rest hpc.2.2.1 hpc.2.2.2
      hpc2
  · intro ck q m z₁ z₂ hzip hq hqcp h₁ h₂
    have hsel : selFold ⟨.POP, cp, cm, prePat⟩ (cs.zip rs) = ⟨.PUSH, q, m, ck⟩ := by
      rw [hzip]
      exact selFold_first_min _ ck q m z₁ z₂ hq (Or.inr hqcp) h₁ h₂
    have hchildren :
        scanChildren g line offset pd.escape cs ⟨.POP, cp, cm, prePat⟩ s₁ =
          .ok (⟨.PUSH, q, m, ck⟩, s₂) := by
      rw [scanChildren_eq_childResults, hcr]
      dsimp only
      rw [hsel]
    rw [scanStep_assemble g pc line offset s prePat pd _ _ s₁ s₂ cs hcur hpd hcloser hch
      hchildren]
    exact finishStep_push pc line offset prePat q m ck s₂

theorem noHooks_preservePC {σ : Type} : HooksPreservePC (noHooks : Hooks σ) :=
  ⟨fun _ _ => rfl, fun _ _ => rfl, fun _ _ => rfl, fun _ _ => rfl⟩

theorem c1_tie_break_witness :
    (∃ s', scanStep tieGrammar (noHooks (σ := Unit)) "x)".data 0 sInner =
      .ok (some (⟨1, some [')'], false, 1, 0⟩, 2), s')) ∧
    (∃ s', scanStep tieGrammar (noHooks (σ := Unit)) "x()".data 0 sInner =
      .ok (some (⟨1, some ['('], true, 1, 3⟩, 2), s')) ∧
    (∃ s', scanStep tieGrammar₂ (noHooks (σ := Unit)) "x()".data 0 sInner =
      .ok (some (⟨1, some ['('], true, 1, 2⟩, 2), s')) := by
  refine ⟨?_, ?_, ?_⟩
  · refine (c1_nearest_transition_tie_break tieGrammar noHooks "x)".data 0 sInner 1 0 []
      _ (.lit [')']) 1 (some [')']) sInner sInner [2, 3]
      [some (1, some [')']), some (-1, none)]
      noHooks_preservePC rfl rfl rfl rfl rfl (by decide) rfl rfl).1 ?_
    intro r hr q m hrm hq
    rcases List.mem_cons.mp hr with h | h
    · rw [h] at hrm
      cases hrm
      omega
    · rcases List.mem_cons.mp h with h' | h'
      · rw [h'] at hrm
        cases hrm
        omega
      · exact absurd h' (List.not_mem_nil r)
  · refine (c1_nearest_transition_tie_break tieGrammar noHooks "x()".data 0 sInner 1 0 []
      _ (.lit [')']) 2 (some [')']) sInner sInner [2, 3]
      [some (2, some [')']), some (1, some ['('])]
      noHooks_preservePC rfl rfl rfl rfl rfl (by decide) rfl rfl).2
      3 1 (some ['(']) [(2, some (2, some [')']))] [] rfl (by decide) (by decide) ?_ ?_
    · intro p hp q' m' hpm hq'
      rcases List.mem_cons.mp hp with h | h
      · rw [h] at hpm
        cases hpm
        omega
      · exact absurd h (List.not_mem_nil p)
    · intro p hp q' m' hpm hq'
      exact absurd hp (List.not_mem_nil p)
  · refine (c1_nearest_transition_tie_break tieGrammar₂ noHooks "x()".data 0 sInner 1 0 []
      _ (.lit [')']) 2 (some [')']) sInner sInner [2, 3]
      [some (1, some ['(']), some (1, some ['('])]
      noHooks_preservePC rfl rfl rfl rfl rfl (by decide) rfl rfl).2
      2 1 (some ['(']) [] [(3, some (1, some ['(']))] rfl (by decide) (by decide) ?_ ?_
    · intro p hp q' m' hpm hq'
      exact absurd hp (List.not_mem_nil p)
    · intro p hp q' m' hpm hq'
      rcases List.mem_cons.mp hp with h | h
      · rw [h] at hpm
        cases hpm
        omega
      · exact absurd h (List.not_mem_nil p)

theorem lookupPattern_setEscape (g : Grammar) (j : Nat) (e : Option PatternLike) (i : Nat) :
    lookupPattern (setEscape g j e) i =
      match lookupPattern g i with
      | .error er => .error er
      | .ok pd => .ok (if i = j then { pd with escape := e } else pd) := by
  induction g generalizing i j with
  | nil => rfl
  | cons pd t ih =>
    cases j with
    | zero =>
      cases i with
      | zero => rfl
      | succ i' =>
        show lookupPattern t i' = _
        have : lookupPattern (pd :: t) (i' + 1) = lookupPattern t i' := rfl
        rw [this]
        cases hlk : lookupPattern t i' with
        | error er => rfl
        | ok pd' => simp [Nat.succ_ne_zero]
    | succ j' =>
      cases i with
      | zero => rfl
      | succ i' =>
        show lookupPattern (setEscape t j' e) i' = _
        rw [ih j' i']
        have : lookupPattern (pd :: t) (i' + 1) = lookupPattern t i' := rfl
        rw [this]
        cases hlk : lookupPattern t i' with
        | error er => rfl
        | ok pd' => simp [Nat.succ.injEq]

theorem scanChildren_setEscape {σ : Type} (g : Grammar) (j : Nat) (e : Option PatternLike)
    (line : Str) (offset : Nat) (esc : Option PatternLike) (cs : List Nat) (acc : Cand)
    (s : TemplateState σ) :
    scanChildren (setEscape g j e) line offset esc cs acc s =
      scanChildren g line offset esc cs acc s := by
  induction cs generalizing acc s with
  | nil => rfl
  | cons cid rest ih =>
    simp only [scanChildren, lookupPattern_setEscape]
    cases hlk : lookupPattern g cid with
    | error er => rfl
    | ok cd =>
      dsimp only
      by_cases hj : cid = j
      · rw [if_pos hj]
        dsimp only
        cases hop : cd.«open» with
        | none => exact ih acc s
        | some op =>
          dsimp only
          by_cases ht : patTruthy op = true
          · rw [if_pos ht, if_pos ht]
            cases hm : matchWithEscapeF (innerFuel line) line offset op esc s with
            | error er => rfl
            | ok pr =>
              obtain ⟨⟨q, mm⟩, s'⟩ := pr
              exact ih _ s'
          · rw [if_neg ht, if_neg ht]
            exact ih acc s
      · rw [if_neg hj]
        cases hop : cd.«open» with
        | none => exact ih acc s
        | some op =>
          dsimp only
          by_cases ht : patTruthy op = true
          · rw [if_pos ht, if_pos ht]
            cases hm : matchWithEscapeF (innerFuel line) line offset op esc s with
            | error er => rfl
            | ok pr =>
              obtain ⟨⟨q, mm⟩, s'⟩ := pr
              exact ih _ s'
          · rw [if_neg ht, if_neg ht]
            exact ih acc s

/-- C10: the escape spec applied when trying a child pattern's opener is
the currently active (enclosing) pattern's escape, not the child's own:
(frame) replacing a non-active pattern's escape spec never changes one
scan iteration, so in particular a child's own escape cannot suppress its
opener; and concretely, with enclosing escape `!` the child opener `[` of
`![` is suppressed (no transition, the text accumulates), while with no
enclosing escape the same child — which itself declares escape `?` — still
opens at the `[` of `?[` (its own escape spec is not consulted). -/
theorem c10_escape_scope {σ : Type} :
    (∀ (g : Grammar) (pc : Hooks σ) (line : Str) (offset : Nat)
        (s : TemplateState σ) (i j : Nat) (e' : Option PatternLike),
      s.patternContext.head? = some i → ¬i = j →
      scanStep (setEscape g j e') pc line offset s = scanStep g pc line offset s) ∧
    scanStep escScopeGrammar (noHooks (σ := Unit)) "![".data 0 w0 =
      .ok (none, { w0 with textBefore := "![".data }) ∧
    scanStep escScopeGrammarNoEsc (noHooks (σ := Unit)) "?[".data 0 w0 =
      .ok (some (⟨1, some ['['], true, 0, 1⟩, 2),
        { w0 with patternContext := [1, 0], textBefore := [] }) := by
  refine ⟨?_, by decide, by decide⟩
  intro g pc line offset s i j e' hhead hne
  have hcur : getCurrentPattern s = .ok i := by
    simp [getCurrentPattern, hhead]
  simp only [scanStep, hcur]
  rw [lookupPattern_setEscape]
  cases hlk : lookupPattern g i with
  | error er => rfl
  | ok pd =>
    dsimp only
    rw [if_neg hne]
    cases hcc : closerCand line offset i pd s with
    | error er => rfl
    | ok pr =>
      obtain ⟨acc₁, s₁⟩ := pr
      dsimp only
      cases hch : pd.children with
      | none => rfl
      | some cs =>
        dsimp only
        rw [scanChildren_setEscape]

theorem c10_escape_scope_witness :
    w0.patternContext.head? = some 0 ∧ ¬(0 : Nat) = 1 ∧
    scanStep (setEscape escScopeGrammar 1 (some (.lit ['z']))) (noHooks (σ := Unit))
        "![".data 0 w0 =
      scanStep escScopeGrammar (noHooks (σ := Unit)) "![".data 0 w0 :=
  ⟨rfl, by decide,
    c10_escape_scope.1 escScopeGrammar noHooks "![".data 0 w0 0 1 (some (.lit ['z']))
      rfl (by decide)⟩

theorem mweLoop_neg_none {σ : Type} (line : Str) (p : PatternLike)
    (escape : Option PatternLike) :
    ∀ (fuel : Nat) (pos : Int) (m : Option Str) (s : TemplateState σ)
      (q : Int) (m' : Option Str) (s' : TemplateState σ),
      mweLoop line p escape fuel pos m s = .ok ((q, m'), s') → q = -1 → m' = none := by
  intro fuel
  induction fuel with
  | zero =>
    intro pos m s q m' s' h hq
    simp only [mweLoop] at h
    by_cases hpos : pos = -1
    · rw [if_pos hpos] at h
      cases h
      rfl
    · rw [if_neg hpos] at h
      cases hce : checkEscape s line pos.toNat escape with
      | error e => rw [hce] at h; exact absurd h (by simp)
      | ok pr =>
        obtain ⟨escaped, s₁⟩ := pr
        rw [hce] at h
        cases escaped with
        | true =>
          simp only [Bool.not_true, if_false] at h
          exact absurd h (by simp)
        | false =>
          simp only [Bool.not_false, if_true] at h
          cases h
          exact absurd hq hpos
  | succ fuel ih =>
    intro pos m s q m' s' h hq
    rw [mweLoop.eq_def] at h
    dsimp only at h
    by_cases hpos : pos = -1
    · rw [if_pos hpos] at h
      cases h
      rfl
    · rw [if_neg hpos] at h
      cases hce : checkEscape s line pos.toNat escape with
      | error e => rw [hce] at h; exact absurd h (by simp)
      | ok pr =>
        obtain ⟨escaped, s₁⟩ := pr
        rw [hce] at h
        cases escaped with
        | true =>
          simp only [Bool.not_true, if_false] at h
          cases hjm : jsMatch line (pos.toNat + matchedLen m) .DEFAULT p s₁ with
          | error e => rw [hjm] at h; exact absurd h (by simp)
          | ok pr' =>
            obtain ⟨⟨pos', mm'⟩, s₂⟩ := pr'
            rw [hjm] at h
            exact ih pos' mm' s₂ q m' s' h hq
        | false =>
          simp only [Bool.not_false, if_true] at h
          cases h
          exact absurd hq hpos

theorem matchWithEscapeF_neg_none {σ : Type} (fuel : Nat) (line : Str) (position : Nat)
    (p : PatternLike) (escape : Option PatternLike) (s : TemplateState σ)
    (q : Int) (m : Option Str) (s' : TemplateState σ)
    (h : matchWithEscapeF fuel line position p escape s = .ok ((q, m), s'))
    (hq : q = -1) : m = none := by
  simp only [matchWithEscapeF] at h
  cases hjm : jsMatch line position .DEFAULT p s with
  | error e => rw [hjm] at h; exact absurd h (by simp)
  | ok pr =>
    obtain ⟨⟨pos, mm⟩, s₁⟩ := pr
    rw [hjm] at h
    exact mweLoop_neg_none line p escape fuel pos mm s₁ q m s' h hq

theorem selFold_no_match (acc : Cand) (l : List (Nat × Option (Int × Option Str)))
    (h : ∀ p ∈ l, ∀ q m, p.2 = some (q, m) → ¬0 ≤ q) :
    selFold acc l = acc := by
  induction l generalizing acc with
  | nil => rfl
  | cons p t ih =>
    obtain ⟨c, r⟩ := p
    have hupd : selUpd acc c r = acc := by
      cases r with
      | none => rfl
      | some qm =>
        obtain ⟨q, m⟩ := qm
        simp only [selUpd]
        rw [if_neg]
        rintro ⟨hq, -⟩
        exact h (c, some (q, m)) (List.mem_cons_self _ _) q m rfl hq
    rw [selFold, hupd]
    exact ih acc (fun p hp => h p (List.mem_cons_of_mem _ hp))

/-- C8: escape exhaustion is not an error.  (a) `matchWithEscape` never
pairs the no-match position `-1` with a non-null matched text: an
exhausted search returns exactly `(-1, null)`, the same result as no
textual match at all.  (b) Concretely, on `!)`, the plain forward match
finds the closer at 1 but every occurrence is escaped, and the
escape-aware search returns `(-1, null)`.  (c) Generally, when neither
the closer nor any child opener yields a candidate, the scan iteration
reports no transition and appends the whole remaining text to
`textBefore`; (d) concretely, `createLayers` on `!)` inside the
exhaust grammar returns no layers and accumulates `!)` into
`textBefore`. -/
theorem c8_escape_exhaustion :
    (∀ (σ : Type) (fuel : Nat) (line : Str) (position : Nat) (p : PatternLike)
        (escape : Option PatternLike) (s : TemplateState σ) (q : Int) (m : Option Str)
        (s' : TemplateState σ),
      matchWithEscapeF fuel line position p escape s = .ok ((q, m), s') → q = -1 →
      m = none) ∧
    resultOf (jsMatch "!)".data 0 .DEFAULT (.lit [')']) w0) = .ok (1, some [')']) ∧
    matchWithEscapeF 9 "!)".data 0 (.lit [')']) (some (.lit ['!'])) w0 =
      .ok ((-1, none), w0) ∧
    (∀ (σ : Type) (g : Grammar) (pc : Hooks σ) (line : Str) (offset : Nat)
        (s : TemplateState σ) (prePat : Nat) (pd : PatternData) (s₁ : TemplateState σ)
        (cs : List Nat) (rs : List (Option (Int × Option Str))) (s₂ : TemplateState σ),
      getCurrentPattern s = .ok prePat →
      lookupPattern g prePat = .ok pd →
      closerCand line offset prePat pd s = .ok (⟨.NONE, -1, none, prePat⟩, s₁) →
      pd.children = some cs →
      childResults g line offset pd.escape cs s₁ = .ok (rs, s₂) →
      (∀ r ∈ rs, ∀ q m, r = some (q, m) → ¬0 ≤ q) →
      scanStep g pc line offset s =
        .ok (none, { s₂ with textBefore := s₂.textBefore ++ line.drop offset })) ∧
    createLayersF exhaustGrammar (noHooks (σ := Unit)) 5 "!)".data 0 sInner =
      .ok ([], { sInner with textBefore := "!)".data }) := by
  refine ⟨?_, by decide, by decide, ?_, by decide⟩
  · intro σ fuel line position p escape s q m s' h hq
    exact matchWithEscapeF_neg_none fuel line position p escape s q m s' h hq
  · intro σ g pc line offset s prePat pd s₁ cs rs s₂ hcur hpd hcc hch hcr hneg
    have hsel : selFold ⟨.NONE, -1, none, prePat⟩ (cs.zip rs) = ⟨.NONE, -1, none, prePat⟩ :=
      selFold_no_match _ _ (fun p hp q m hpm => hneg p.2 (List.of_mem_zip hp).2 q m hpm)
    have hchildren :
        scanChildren g line offset pd.escape cs ⟨.NONE, -1, none, prePat⟩ s₁ =
          .ok (⟨.NONE, -1, none, prePat⟩, s₂) := by
      rw [scanChildren_eq_childResults, hcr]
      dsimp only
      rw [hsel]
    rw [scanStep_assemble g pc line offset s prePat pd _ _ s₁ s₂ cs hcur hpd hcc hch
      hchildren]
    exact finishStep_none pc line offset prePat (-1) none prePat s₂

theorem c8_escape_exhaustion_witness :
    (none : Option Str) = none ∧
    scanStep exhaustGrammar (noHooks (σ := Unit)) "!)".data 0 sInner =
      .ok (none, { sInner with textBefore := "!)".data }) :=
  ⟨c8_escape_exhaustion.1 Unit 9 "!)".data 0 (.lit [')']) (some (.lit ['!'])) w0
      (-1) none w0 (by decide) rfl,
    by
      have := c8_escape_exhaustion.2.2.2.1 Unit exhaustGrammar noHooks "!)".data 0 sInner
        1 _ sInner [] [] sInner rfl rfl (by decide) rfl rfl
        (fun r hr q m hrm => absurd hr (List.not_mem_nil r))
      simpa using this⟩

theorem closerCand_state {σ : Type} (line : Str) (offset : Nat) (prePat : Nat)
    (pd : PatternData) (s : TemplateState σ) (acc : Cand) (s₁ : TemplateState σ)
    (h : closerCand line offset prePat pd s = .ok (acc, s₁)) :
    s₁ = { s with regExpCache := s₁.regExpCache } := by
  simp only [closerCand] at h
  cases hcl : pd.close with
  | none => rw [hcl] at h; cases h; rfl
  | some close =>
    rw [hcl] at h
    dsimp only at h
    by_cases ht : patTruthy close = true
    · rw [if_pos ht] at h
      cases hm : matchWithEscapeF (innerFuel line) line offset close pd.escape s with
      | error e => rw [hm] at h; exact absurd h (by simp)
      | ok pr =>
        obtain ⟨⟨q, mm⟩, s'⟩ := pr
        rw [hm] at h
        dsimp only at h
        cases h
        exact matchWithEscapeF_state (innerFuel line) line offset close pd.escape s _ _ hm
    · rw [if_neg ht] at h
      cases h
      rfl

theorem closerCand_shape {σ : Type} (line : Str) (offset : Nat) (prePat : Nat)
    (pd : PatternData) (s : TemplateState σ) (acc : Cand) (s₁ : TemplateState σ)
    (h : closerCand line offset prePat pd s = .ok (acc, s₁)) :
    (acc.found = .NONE ∨ (acc.found = .POP ∧ specTruthy pd.close = true)) ∧
    acc.next = prePat := by
  simp only [closerCand] at h
  cases hcl : pd.close with
  | none => rw [hcl] at h; cases h; exact ⟨Or.inl rfl, rfl⟩
  | some close =>
    rw [hcl] at h
    dsimp only at h
    by_cases ht : patTruthy close = true
    · rw [if_pos ht] at h
      cases hm : matchWithEscapeF (innerFuel line) line offset close pd.escape s with
      | error e => rw [hm] at h; exact absurd h (by simp)
      | ok pr =>
        obtain ⟨⟨q, mm⟩, s'⟩ := pr
        rw [hm] at h
        dsimp only at h
        by_cases hq : 0 ≤ q
        · rw [if_pos hq] at h
          cases h
          exact ⟨Or.inr ⟨rfl, by simpa [specTruthy, hcl] using ht⟩, rfl⟩
        · rw [if_neg hq] at h
          cases h
          exact ⟨Or.inl rfl, rfl⟩
    · rw [if_neg ht] at h
      cases h
      exact ⟨Or.inl rfl, rfl⟩

theorem selFold_self_or_push (l : List (Nat × Option (Int × Option Str))) :
    ∀ acc : Cand, selFold acc l = acc ∨ (selFold acc l).found = .PUSH := by
  induction l with
  | nil => intro acc; exact Or.inl rfl
  | cons p t ih =>
    intro acc
    obtain ⟨c, r⟩ := p
    rw [selFold]
    have hupd : selUpd acc c r = acc ∨ (selUpd acc c r).found = .PUSH := by
      cases r with
      | none => exact Or.inl rfl
      | some qm =>
        obtain ⟨q, m⟩ := qm
        simp only [selUpd]
        by_cases hc : 0 ≤ q ∧ (acc.pos = -1 ∨ q < acc.pos)
        · rw [if_pos hc]; exact Or.inr rfl
        · rw [if_neg hc]; exact Or.inl rfl
    rcases ih (selUpd acc c r) with h | h
    · rw [h]
      rcases hupd with h' | h'
      · rw [h']; exact Or.inl rfl
      · exact Or.inr h'
    · exact Or.inr h

theorem scanChildren_state_and_shape {σ : Type} (g : Grammar) (line : Str) (offset : Nat)
    (esc : Option PatternLike) (cs : List Nat) (acc : Cand) (s : TemplateState σ)
    (acc₂ : Cand) (s₂ : TemplateState σ)
    (h : scanChildren g line offset esc cs acc s = .ok (acc₂, s₂)) :
    s₂ = { s with regExpCache := s₂.regExpCache } ∧
    (acc₂ = acc ∨ acc₂.found = .PUSH) := by
  rw [scanChildren_eq_childResults] at h
  cases hcr : childResults g line offset esc cs s with
  | error e => rw [hcr] at h; exact absurd h (by simp)
  | ok pr =>
    obtain ⟨rs, s'⟩ := pr
    rw [hcr] at h
    dsimp only at h
    cases h
    exact ⟨childResults_state g line offset esc cs s rs _ hcr, selFold_self_or_push _ acc⟩

theorem finishStep_pc {σ : Type} (pc : Hooks σ) (line : Str) (offset : Nat)
    (prePat : Nat) (acc : Cand) (s₂ : TemplateState σ)
    (res : Option (Layer × Nat)) (s' : TemplateState σ)
    (hpc : HooksPreservePC pc)
    (h : finishStep pc line offset prePat acc s₂ = .ok (res, s')) :
    (acc.found = .NONE → s'.patternContext = s₂.patternContext) ∧
    (acc.found = .PUSH → s'.patternContext = acc.next :: s₂.patternContext) ∧
    (acc.found = .POP → s'.patternContext = s₂.patternContext.tail) := by
  obtain ⟨hbe, hae, hbx, hax⟩ := hpc
  have hbe' : ∀ (t : TemplateState σ) (i : HookInfo),
      (runHook pc.beforeEnter t i).patternContext = t.patternContext := hbe
  have hae' : ∀ (t : TemplateState σ) (i : HookInfo),
      (runHook pc.afterEnter t i).patternContext = t.patternContext := hae
  have hbx' : ∀ (t : TemplateState σ) (i : HookInfo),
      (runHook pc.beforeExit t i).patternContext = t.patternContext := hbx
  have hax' : ∀ (t : TemplateState σ) (i : HookInfo),
      (runHook pc.afterExit t i).patternContext = t.patternContext := hax
  cases hfd : acc.found with
  | NONE =>
    refine ⟨fun _ => ?_, fun hc => absurd hc (by decide), fun hc => absurd hc (by decide)⟩
    simp only [finishStep, hfd] at h
    cases h
    rfl
  | PUSH =>
    refine ⟨fun hc => absurd hc (by decide), fun _ => ?_, fun hc => absurd hc (by decide)⟩
    simp only [finishStep, hfd] at h
    cases h
    rw [hae']
    show (pushPatternContext (runHook pc.beforeEnter _ _) acc.next).patternContext = _
    rw [pushPatternContext]
    simp only [hbe']
  | POP =>
    refine ⟨fun hc => absurd hc (by decide), fun hc => absurd hc (by decide), fun _ => ?_⟩
    simp only [finishStep, hfd] at h
    cases hg : getCurrentPattern (runHook pc.afterExit
      (popPatternContext (runHook pc.beforeExit
        { s₂ with textBefore := s₂.textBefore ++ jsSlice line offset acc.pos.toNat }
        ⟨line, acc.pos, s₂.textBefore ++ jsSlice line offset acc.pos.toNat, acc.matched, prePat⟩))
      ⟨line, acc.pos,
        (popPatternContext (runHook pc.beforeExit
          { s₂ with textBefore := s₂.textBefore ++ jsSlice line offset acc.pos.toNat }
          ⟨line, acc.pos, s₂.textBefore ++ jsSlice line offset acc.pos.toNat, acc.matched,
            prePat⟩)).textBefore, acc.matched, prePat⟩) with
    | error e => rw [hg] at h; exact absurd h (by simp)
    | ok np =>
      rw [hg] at h
      cases h
      rw [hax']
      show (popPatternContext (runHook pc.beforeExit _ _)).patternContext = _
      rw [popPatternContext]
      simp only [hbx']

theorem getCurrentPattern_ok {σ : Type} (s : TemplateState σ) (p : Nat)
    (h : getCurrentPattern s = .ok p) : ∃ t, s.patternContext = p :: t := by
  simp only [getCurrentPattern] at h
  cases hpc : s.patternContext with
  | nil => rw [hpc] at h; exact absurd h (by simp)
  | cons a t =>
    rw [hpc] at h
    simp only [List.head?_cons] at h
    cases h
    exact ⟨t, rfl⟩

theorem scanStep_preserves_root {σ : Type} (g : Grammar) (pc : Hooks σ) (line : Str)
    (offset : Nat) (s : TemplateState σ) (root : Nat)
    (hclose : ∀ pd, lookupPattern g root = .ok pd → specTruthy pd.close = false)
    (hpc : HooksPreservePC pc)
    (hroot : s.patternContext.getLast? = some root)
    (res : Option (Layer × Nat)) (s' : TemplateState σ)
    (h : scanStep g pc line offset s = .ok (res, s')) :
    s'.patternContext.getLast? = some root := by
  simp only [scanStep] at h
  cases hcur : getCurrentPattern s with
  | error e => rw [hcur] at h; exact absurd h (by simp)
  | ok prePat =>
  rw [hcur] at h
  dsimp only at h
  cases hpd : lookupPattern g prePat with
  | error e => rw [hpd] at h; exact absurd h (by simp)
  | ok pd =>
  rw [hpd] at h
  dsimp only at h
  cases hcc : closerCand line offset prePat pd s with
  | error e => rw [hcc] at h; exact absurd h (by simp)
  | ok pr =>
  obtain ⟨acc₁, s₁⟩ := pr
  rw [hcc] at h
  dsimp only at h
  obtain ⟨hshape₁, hnext₁⟩ := closerCand_shape line offset prePat pd s acc₁ s₁ hcc
  have hs₁ := closerCand_state line offset prePat pd s acc₁ s₁ hcc
  obtain ⟨t, hdt⟩ := getCurrentPattern_ok s prePat hcur
  have finish : ∀ (acc₂ : Cand) (s₂ : TemplateState σ),
      s₂.patternContext = s.patternContext →
      (acc₂ = acc₁ ∨ acc₂.found = .PUSH) →
      finishStep pc line offset prePat acc₂ s₂ = .ok (res, s') →
      s'.patternContext.getLast? = some root := by
    intro acc₂ s₂ hpc₂ hshape₂ hfin
    obtain ⟨hN, hP, hO⟩ := finishStep_pc pc line offset prePat acc₂ s₂ res s' hpc hfin
    cases hfd : acc₂.found with
    | NONE =>
      rw [hN hfd, hpc₂]
      exact hroot
    | PUSH =>
      rw [hP hfd, hpc₂, hdt]
      rw [hdt] at hroot
      cases t with
      | nil =>
        simp only [List.getLast?_cons_cons]
        exact hroot
      | cons a t' =>
        simp only [List.getLast?_cons_cons]
        exact hroot
    | POP =>
      have hacc₁ : acc₂ = acc₁ := by
        rcases hshape₂ with h' | h'
        · exact h'
        · rw [hfd] at h'; cases h'
      have hPOP : acc₁.found = .POP := by rw [← hacc₁, hfd]
      have hct : specTruthy pd.close = true := by
        rcases hshape₁ with h' | h'
        · rw [hPOP] at h'; cases h'
        · exact h'.2
      rw [hO hfd, hpc₂, hdt]
      rw [hdt] at hroot
      cases t with
      | nil =>
        exfalso
        simp only [List.getLast?_singleton] at hroot
        cases hroot
        have := hclose pd hpd
        rw [this] at hct
        cases hct
      | cons a t' =>
        simp only [List.getLast?_cons_cons] at hroot
        simpa using hroot
  cases hch : pd.children with
  | none =>
    rw [hch] at h
    dsimp only at h
    refine finish acc₁ s₁ ?_ (Or.inl rfl) h
    rw [hs₁]
  | some cs =>
    rw [hch] at h
    dsimp only at h
    cases hsc : scanChildren g line offset pd.escape cs acc₁ s₁ with
    | error e => rw [hsc] at h; exact absurd h (by simp)
    | ok pr₂ =>
      obtain ⟨acc₂, s₂⟩ := pr₂
      rw [hsc] at h
      dsimp only at h
      obtain ⟨hs₂, hshape₂⟩ := scanChildren_state_and_shape g line offset pd.escape cs acc₁
        s₁ acc₂ s₂ hsc
      refine finish acc₂ s₂ ?_ hshape₂ h
      rw [hs₂, hs₁]

theorem createLayersF_preserves_root {σ : Type} (g : Grammar) (pc : Hooks σ) (root : Nat)
    (hclose : ∀ pd, lookupPattern g root = .ok pd → specTruthy pd.close = false)
    (hpc : HooksPreservePC pc) :
    ∀ (fuel : Nat) (line : Str) (offset : Nat) (s : TemplateState σ)
      (ls : List Layer) (s' : TemplateState σ),
      s.patternContext.getLast? = some root →
      createLayersF g pc fuel line offset s = .ok (ls, s') →
      s'.patternContext.getLast? = some root := by
  intro fuel
  induction fuel with
  | zero =>
    intro line offset s ls s' hroot h
    exact absurd h (by simp [createLayersF])
  | succ fuel ih =>
    intro line offset s ls s' hroot h
    simp only [createLayersF] at h
    by_cases hlt : offset < line.length
    · rw [if_pos hlt] at h
      cases hsc : scanStep g pc line offset s with
      | error e => rw [hsc] at h; exact absurd h (by simp)
      | ok pr =>
        obtain ⟨res, s₁⟩ := pr
        rw [hsc] at h
        have h₁ := scanStep_preserves_root g pc line offset s root hclose hpc hroot res s₁
          hsc
        cases res with
        | none =>
          dsimp only at h
          cases h
          exact h₁
        | some lo =>
          obtain ⟨layer, offset'⟩ := lo
          dsimp only at h
          cases hrec : createLayersF g pc fuel line offset' s₁ with
          | error e => rw [hrec] at h; exact absurd h (by simp)
          | ok pr' =>
            obtain ⟨rest, s₂⟩ := pr'
            rw [hrec] at h
            cases h
            exact ih line offset' s₁ rest _ h₁ hrec
    · rw [if_neg hlt] at h
      cases h
      exact hroot

theorem defaultHooks_preservePC {σ : Type} : HooksPreservePC (defaultHooks : Hooks σ) := by
  refine ⟨?_, ?_, ?_, ?_⟩
  · intro s i
    show (runHook (none : Option (HookFn σ)) (defaultBeforeEnter s i) i).patternContext =
      s.patternContext
    rfl
  · intro s i; rfl
  · intro s i; rfl
  · intro s i
    show (runHook (none : Option (HookFn σ)) (defaultAfterExit s i) i).patternContext =
      s.patternContext
    simp only [runHook, defaultAfterExit]
    split <;> rfl

/-- C7: the pattern-context stack is never emptied by layer computation.
The initial state's stack holds exactly the root pattern; the mode
constructor strips the configuration's `open`/`close`, so the root's
close spec is absent; and whenever the root pattern's close spec is falsy
(so a POP can never fire on the root, POP layers requiring a truthy close
on the current pattern) and the configured hooks do not touch the stack,
any `createLayers` invocation from a state whose stack bottom is the root
returns a state whose stack bottom is still the root — in particular the
stack is never `null`. -/
theorem c7_stack_never_empty :
    (∀ (σ : Type) (init : List (StateCtx σ)),
      (startState init).patternContext = [rootId]) ∧
    (∀ (b c : Option ModeId) (pd : PatternData),
      lookupPattern (defaultGrammar b c) rootId = .ok pd → pd.close = none) ∧
    (∀ (σ : Type) (g : Grammar) (pc : Hooks σ) (root : Nat) (fuel : Nat) (line : Str)
        (offset : Nat) (s : TemplateState σ) (ls : List Layer) (s' : TemplateState σ),
      (∀ pd, lookupPattern g root = .ok pd → specTruthy pd.close = false) →
      HooksPreservePC pc →
      s.patternContext.getLast? = some root →
      createLayersF g pc fuel line offset s = .ok (ls, s') →
      s'.patternContext.getLast? = some root ∧ ¬s'.patternContext = []) := by
  refine ⟨fun _ _ => rfl, ?_, ?_⟩
  · intro b c pd h
    cases h
    rfl
  · intro σ g pc root fuel line offset s ls s' hclose hpc hroot h
    have h₁ := createLayersF_preserves_root g pc root hclose hpc fuel line offset s ls s'
      hroot h
    refine ⟨h₁, ?_⟩
    intro hnil
    rw [hnil] at h₁
    cases h₁

theorem c7_stack_never_empty_witness :
    (startState ([] : List (StateCtx Unit))).patternContext = [rootId] ∧
    (∃ ls s', createLayersF plainParenGrammar (noHooks (σ := Unit)) 5
        "(x)".data 0 w0 = .ok (ls, s') ∧
      s'.patternContext.getLast? = some rootId ∧ ¬s'.patternContext = []) := by
  refine ⟨c7_stack_never_empty.1 Unit [], ?_⟩
  refine ⟨_, _, rfl, ?_⟩
  exact c7_stack_never_empty.2.2 Unit plainParenGrammar noHooks rootId 5
    "(x)".data 0 w0 _ _ (fun pd h => by cases h; rfl) noHooks_preservePC rfl rfl

theorem isPrefixOf_nil_eq (pat : Str) (h : pat.isPrefixOf ([] : List Char) = true) :
    pat = [] := by
  cases pat with
  | nil => rfl
  | cons c t => simp [List.isPrefixOf] at h

theorem jsIndexOfAux_bounds (pat : Str) :
    ∀ (rest : List Char) (i : Nat),
      jsIndexOfAux pat rest i = -1 ∨
      ∃ k : Nat, jsIndexOfAux pat rest i = ((i + k : Nat) : Int) ∧
        k + pat.length ≤ rest.length := by
  intro rest
  induction rest with
  | nil =>
    intro i
    simp only [jsIndexOfAux]
    by_cases h : pat.isPrefixOf ([] : List Char) = true
    · rw [if_pos h]
      right
      refine ⟨0, by simp, ?_⟩
      rw [isPrefixOf_nil_eq pat h]
      simp
    · rw [if_neg h]
      left
      rfl
  | cons c t ih =>
    intro i
    simp only [jsIndexOfAux]
    by_cases h : pat.isPrefixOf (c :: t) = true
    · rw [if_pos h]
      right
      refine ⟨0, by simp, ?_⟩
      have hpre : pat <+: c :: t := by
        exact (List.isPrefixOf_iff_prefix).mp h
      have := hpre.length_le
      simpa using this
    · rw [if_neg h]
      rcases ih (i + 1) with h' | ⟨k, hk, hlen⟩
      · left
        exact h'
      · right
        refine ⟨k + 1, ?_, ?_⟩
        · rw [hk]
          congr 1
          omega
        · simp only [List.length_cons]
          omega

theorem jsIndexOf_bounds (line pat : Str) (from_ : Nat) (hfrom : from_ ≤ line.length) :
    jsIndexOf line pat from_ = -1 ∨
    ∃ k : Nat, jsIndexOf line pat from_ = (k : Int) ∧ from_ ≤ k ∧
      k + pat.length ≤ line.length := by
  have hmin : min from_ line.length = from_ := Nat.min_eq_left hfrom
  simp only [jsIndexOf, hmin]
  rcases jsIndexOfAux_bounds pat (line.drop from_) from_ with h | ⟨k, hk, hlen⟩
  · left; exact h
  · right
    refine ⟨from_ + k, hk, Nat.le_add_right _ _, ?_⟩
    have : (line.drop from_).length = line.length - from_ := List.length_drop _ _
    omega

theorem runCallback_bounds {σ : Type} (c : CallbackKind) (text : Str) (from_ : Nat)
    (s : TemplateState σ) (hfrom : from_ ≤ text.length) :
    runCallback c text from_ s = (-1, none) ∨
    ∃ k : Nat, runCallback c text from_ s = ((k : Int), some ['[']) ∧ from_ ≤ k ∧
      k + 1 ≤ text.length := by
  cases c with
  | templateOpen =>
    simp only [runCallback]
    by_cases hcond : ¬getCustom s.customs "justExitTemplate".data = some true ∨
        (0 ≤ jsIndexOf text ['['] from_ ∧
          ¬regSpaceTest (s.textBefore ++
            jsSlice text from_ (jsIndexOf text ['['] from_).toNat) = true)
    · rw [if_pos hcond]
      left
      norm_num
    · rw [if_neg hcond]
      rcases jsIndexOf_bounds text ['['] from_ hfrom with h | ⟨k, hk, hge, hlen⟩
      · rw [h]
        left
        norm_num
      · rw [hk]
        right
        refine ⟨k, ?_, hge, by simpa using hlen⟩
        rw [if_pos (by positivity)]

theorem jsMatch_fwd_bounds {σ : Type} (line : Str) (from_ : Nat) (p : PatternLike)
    (s : TemplateState σ) (hgood : litOrCb p = true) (htr : patTruthy p = true)
    (hfrom : from_ ≤ line.length) :
    jsMatch line from_ .DEFAULT p s = .ok (((-1 : Int), none), s) ∨
    ∃ (k : Nat) (m : Str), jsMatch line from_ .DEFAULT p s = .ok (((k : Int), some m), s) ∧
      from_ ≤ k ∧ 1 ≤ m.length ∧ k + m.length ≤ line.length := by
  cases p with
  | regex src flags => simp [litOrCb] at hgood
  | lit str =>
    cases str with
    | nil => simp [patTruthy] at htr
    | cons c cs =>
      simp only [jsMatch]
      rcases jsIndexOf_bounds line (c :: cs) from_ hfrom with h | ⟨k, hk, hge, hlen⟩
      · rw [h]
        left
        norm_num
      · rw [hk]
        right
        refine ⟨k, c :: cs, ?_, hge, by simp, by simpa using hlen⟩
        rw [if_pos (by positivity)]
  | callback cb =>
    simp only [jsMatch]
    rcases runCallback_bounds cb line from_ s hfrom with h | ⟨k, hk, hge, hlen⟩
    · rw [h]
      left
      rfl
    · rw [hk]
      right
      exact ⟨k, ['['], rfl, hge, by simp, by simpa using hlen⟩

theorem getCachedRegExpM_err {σ : Type} (s : TemplateState σ) (source flags : Str)
    (anchor : AnchorMode) (global : Bool) (e : ScanErr)
    (h : getCachedRegExpM s source flags anchor global = .error e) : e = .crash := by
  simp only [getCachedRegExpM] at h
  cases hp : parseRegex (normalizeSource source anchor) with
  | none =>
    rw [hp] at h
    cases h
    rfl
  | some r =>
    rw [hp] at h
    dsimp only at h
    split at h <;> cases h

theorem jsMatch_err {σ : Type} (line : Str) (position : Nat) (mode : MatchMode)
    (p : PatternLike) (s : TemplateState σ) (e : ScanErr)
    (h : jsMatch line position mode p s = .error e) : e = .crash := by
  cases p with
  | lit str => cases mode <;> simp only [jsMatch] at h <;> cases h
  | callback c => simp only [jsMatch] at h; cases h
  | regex src flags =>
    cases mode with
    | DEFAULT =>
      simp only [jsMatch] at h
      cases hg : getCachedRegExpM s src flags .NONE true with
      | error e' =>
        rw [hg] at h
        simp only [Except.map] at h
        cases h
        exact getCachedRegExpM_err s src flags .NONE true e hg
      | ok pr =>
        rw [hg] at h
        obtain ⟨rg, s₁⟩ := pr
        simp only [Except.map] at h
        cases h
    | SUFFIX =>
      simp only [jsMatch] at h
      cases hg : getCachedRegExpM s src flags .END false with
      | error e' =>
        rw [hg] at h
        simp only [Except.map] at h
        cases h
        exact getCachedRegExpM_err s src flags .END false e hg
      | ok pr =>
        rw [hg] at h
        obtain ⟨rg, s₁⟩ := pr
        simp only [Except.map] at h
        cases h

theorem checkEscape_err {σ : Type} (s : TemplateState σ) (line : Str) (offset : Nat)
    (escape : Option PatternLike) (e : ScanErr)
    (h : checkEscape s line offset escape = .error e) : e = .crash := by
  simp only [checkEscape] at h
  split at h
  · cases h
  · cases escape with
    | none => cases h
    | some e' =>
      dsimp only at h
      cases hm : jsMatch line offset .SUFFIX e' s with
      | error er =>
        rw [hm] at h
        simp only [Except.map] at h
        cases h
        exact jsMatch_err line offset .SUFFIX e' s e hm
      | ok pr =>
        obtain ⟨⟨pos, m⟩, s₁⟩ := pr
        rw [hm] at h
        simp only [Except.map] at h
        cases h

theorem mweLoop_good {σ : Type} (line : Str) (p : PatternLike) (esc : Option PatternLike)
    (lb : Nat) (hgood : litOrCb p = true) (htr : patTruthy p = true) :
    ∀ (fuel : Nat) (pos : Int) (m : Option Str) (s : TemplateState σ),
      (pos = -1 ∨ 0 ≤ pos) →
      (0 ≤ pos → (lb ≤ pos.toNat ∧ 1 ≤ matchedLen m ∧
        pos.toNat + matchedLen m ≤ line.length)) →
      (0 ≤ pos → line.length ≤ pos.toNat + fuel) →
      ¬mweLoop line p esc fuel pos m s = .error .timeout ∧
      (∀ (q : Int) (mm : Option Str) (s' : TemplateState σ),
        mweLoop line p esc fuel pos m s = .ok ((q, mm), s') →
        (q = -1 ∧ mm = none) ∨
        (0 ≤ q ∧ lb ≤ q.toNat ∧ 1 ≤ matchedLen mm ∧
          q.toNat + matchedLen mm ≤ line.length)) := by
  intro fuel
  induction fuel with
  | zero =>
    intro pos m s hsgn hinv hfuel
    rw [mweLoop.eq_def]
    dsimp only
    by_cases hpos : pos = -1
    · rw [if_pos hpos]
      refine ⟨by simp, ?_⟩
      intro q mm s' h
      cases h
      exact Or.inl ⟨rfl, rfl⟩
    · rw [if_neg hpos]
      have h0 : 0 ≤ pos := hsgn.resolve_left hpos
      obtain ⟨hlb, hm, hle⟩ := hinv h0
      exfalso
      have := hfuel h0
      omega
  | succ fuel ih =>
    intro pos m s hsgn hinv hfuel
    rw [mweLoop.eq_def]
    dsimp only
    by_cases hpos : pos = -1
    · rw [if_pos hpos]
      refine ⟨by simp, ?_⟩
      intro q mm s' h
      cases h
      exact Or.inl ⟨rfl, rfl⟩
    · rw [if_neg hpos]
      have h0 : 0 ≤ pos := hsgn.resolve_left hpos
      obtain ⟨hlb, hm, hle⟩ := hinv h0
      cases hce : checkEscape s line pos.toNat esc with
      | error e =>
        have hcr : e = .crash := checkEscape_err s line pos.toNat esc e hce
        refine ⟨?_, ?_⟩
        · intro hT
          have : e = .timeout := Except.error.inj hT
          rw [hcr] at this
          cases this
        · intro q mm s' h
          exact absurd h (by simp)
      | ok pr =>
        obtain ⟨escaped, s₁⟩ := pr
        cases escaped with
        | false =>
          simp only [Bool.not_false, if_true]
          refine ⟨by simp, ?_⟩
          intro q mm s' h
          cases h
          exact Or.inr ⟨h0, hlb, hm, hle⟩
        | true =>
          simp only [Bool.not_true, if_false]
          rcases jsMatch_fwd_bounds line (pos.toNat + matchedLen m) p s₁ hgood htr
              (by omega) with hjm | ⟨k, mm', hjm, hge, hmm, hkle⟩
          · rw [hjm]
            refine ih (-1) none s₁ (Or.inl rfl) (by intro h; exact absurd h (by norm_num))
              (by intro h; exact absurd h (by norm_num))
          · rw [hjm]
            refine ih (k : Int) (some mm') s₁ (Or.inr (by positivity)) ?_ ?_
            · intro _
              refine ⟨by simpa using le_trans hlb (by omega), ?_, ?_⟩
              · simpa [matchedLen] using hmm
              · simpa [matchedLen] using hkle
            · intro _
              have := hfuel h0
              simp only [Int.toNat_natCast]
              omega

theorem matchWithEscapeF_good {σ : Type} (line : Str) (position : Nat) (p : PatternLike)
    (esc : Option PatternLike) (s : TemplateState σ)
    (hgood : litOrCb p = true) (htr : patTruthy p = true) (hfrom : position ≤ line.length) :
    ¬matchWithEscapeF (innerFuel line) line position p esc s = .error .timeout ∧
    (∀ (q : Int) (mm : Option Str) (s' : TemplateState σ),
      matchWithEscapeF (innerFuel line) line position p esc s = .ok ((q, mm), s') →
      (q = -1 ∧ mm = none) ∨
      (0 ≤ q ∧ position ≤ q.toNat ∧ 1 ≤ matchedLen mm ∧
        q.toNat + matchedLen mm ≤ line.length)) := by
  simp only [matchWithEscapeF]
  rcases jsMatch_fwd_bounds line position p s hgood htr hfrom with hjm | ⟨k, m, hjm, hge, hm, hkle⟩
  · rw [hjm]
    exact mweLoop_good line p esc position hgood htr (innerFuel line) (-1) none s
      (Or.inl rfl) (by intro h; exact absurd h (by norm_num))
      (by intro h; exact absurd h (by norm_num))
  · rw [hjm]
    refine mweLoop_good line p esc position hgood htr (innerFuel line) (k : Int) (some m) s
      (Or.inr (by positivity)) ?_ ?_
    · intro _
      exact ⟨by simpa using hge, by simpa [matchedLen] using hm,
        by simpa [matchedLen] using hkle⟩
    · intro _
      simp only [Int.toNat_natCast, innerFuel]
      omega

theorem lookupPattern_mem (g : Grammar) (i : Nat) (pd : PatternData)
    (h : lookupPattern g i = .ok pd) : pd ∈ g := by
  simp only [lookupPattern] at h
  cases hg : g.get? i with
  | none => rw [hg] at h; cases h
  | some pd' =>
    rw [hg] at h
    cases h
    exact List.get?_mem hg

theorem goodGrammarB_spec (g : Grammar) (pd : PatternData)
    (hg : goodGrammarB g = true) (hmem : pd ∈ g) :
    (∀ op, pd.«open» = some op → litOrCb op = true) ∧
    (∀ cl, pd.close = some cl → litOrCb cl = true) := by
  simp only [goodGrammarB, List.all_eq_true] at hg
  have := hg pd hmem
  rw [Bool.and_eq_true] at this
  constructor
  · intro op hop
    have h1 := this.1
    rw [hop] at h1
    simpa [Option.all] using h1
  · intro cl hcl
    have h2 := this.2
    rw [hcl] at h2
    simpa [Option.all] using h2

theorem closerCand_good {σ : Type} (line : Str) (offset : Nat) (prePat : Nat)
    (pd : PatternData) (s : TemplateState σ)
    (hgood : ∀ cl, pd.close = some cl → litOrCb cl = true)
    (hfrom : offset ≤ line.length) :
    ¬closerCand line offset prePat pd s = .error .timeout ∧
    (∀ (acc₁ : Cand) (s₁ : TemplateState σ),
      closerCand line offset prePat pd s = .ok (acc₁, s₁) → CandOk line offset acc₁) := by
  simp only [closerCand]
  cases hcl : pd.close with
  | none =>
    exact ⟨by simp, fun acc₁ s₁ h => by cases h; exact Or.inl rfl⟩
  | some cl =>
    dsimp only
    by_cases ht : patTruthy cl = true
    · rw [if_pos ht]
      obtain ⟨hnt, hok⟩ := matchWithEscapeF_good line offset cl pd.escape s
        (hgood cl hcl) ht hfrom
      cases hm : matchWithEscapeF (innerFuel line) line offset cl pd.escape s with
      | error e =>
        refine ⟨?_, fun acc₁ s₁ h => absurd h (by simp)⟩
        intro hT
        have : e = .timeout := Except.error.inj hT
        rw [this] at hm
        exact hnt hm
      | ok pr =>
        obtain ⟨⟨q, mm⟩, s'⟩ := pr
        dsimp only
        refine ⟨by simp, ?_⟩
        intro acc₁ s₁ h
        by_cases hq : (0 : Int) ≤ q
        · rw [if_pos hq] at h
          cases h
          rcases hok q mm _ hm with ⟨hq', -⟩ | hb
          · omega
          · exact Or.inr hb
        · rw [if_neg hq] at h
          cases h
          exact Or.inl rfl
    · rw [if_neg ht]
      exact ⟨by simp, fun acc₁ s₁ h => by cases h; exact Or.inl rfl⟩

theorem scanChildren_good {σ : Type} (g : Grammar) (line : Str) (offset : Nat)
    (esc : Option PatternLike) (hg : goodGrammarB g = true) (hfrom : offset ≤ line.length) :
    ∀ (cs : List Nat) (acc : Cand) (s : TemplateState σ),
      CandOk line offset acc →
      ¬scanChildren g line offset esc cs acc s = .error .timeout ∧
      (∀ (acc₂ : Cand) (s₂ : TemplateState σ),
        scanChildren g line offset esc cs acc s = .ok (acc₂, s₂) → CandOk line offset acc₂) := by
  intro cs
  induction cs with
  | nil =>
    intro acc s hacc
    exact ⟨by simp [scanChildren], fun acc₂ s₂ h => by cases h; exact hacc⟩
  | cons cid rest ih =>
    intro acc s hacc
    simp only [scanChildren]
    cases hlk : lookupPattern g cid with
    | error e =>
      have : e = ScanErr.crash := by
        simp only [lookupPattern] at hlk
        cases hgg : g.get? cid with
        | none => rw [hgg] at hlk; cases hlk; rfl
        | some pd => rw [hgg] at hlk; cases hlk
      refine ⟨?_, fun acc₂ s₂ h => absurd h (by simp)⟩
      intro hT
      have h2 : e = .timeout := Except.error.inj hT
      rw [this] at h2
      cases h2
    | ok cd =>
      dsimp only
      have hopen := (goodGrammarB_spec g cd hg (lookupPattern_mem g cid cd hlk)).1
      cases hop : cd.«open» with
      | none => exact ih acc s hacc
      | some op =>
        dsimp only
        by_cases ht : patTruthy op = true
        · rw [if_pos ht]
          obtain ⟨hnt, hok⟩ := matchWithEscapeF_good line offset op esc s
            (hopen op hop) ht hfrom
          cases hm : matchWithEscapeF (innerFuel line) line offset op esc s with
          | error e =>
            refine ⟨?_, fun acc₂ s₂ h => absurd h (by simp)⟩
            intro hT
            have : e = .timeout := Except.error.inj hT
            rw [this] at hm
            exact hnt hm
          | ok pr =>
            obtain ⟨⟨q, mm⟩, s'⟩ := pr
            dsimp only
            have hacc' : CandOk line offset
                (if 0 ≤ q ∧ (acc.pos = -1 ∨ q < acc.pos) then ⟨.PUSH, q, mm, cid⟩ else acc) := by
              by_cases hc : 0 ≤ q ∧ (acc.pos = -1 ∨ q < acc.pos)
              · rw [if_pos hc]
                rcases hok q mm s' hm with ⟨hq', -⟩ | hb
                · exfalso; omega
                · exact Or.inr hb
              · rw [if_neg hc]
                exact hacc
            exact ih _ s' hacc'
        · rw [if_neg ht]
          exact ih acc s hacc

theorem finishStep_no_timeout {σ : Type} (pc : Hooks σ) (line : Str) (offset : Nat)
    (prePat : Nat) (acc : Cand) (s : TemplateState σ) :
    ¬finishStep pc line offset prePat acc s = .error .timeout := by
  simp only [finishStep]
  cases acc.found with
  | NONE => simp
  | PUSH => simp
  | POP =>
    cases hg : getCurrentPattern (runHook pc.afterExit (popPatternContext
        (runHook pc.beforeExit _ _)) _) with
    | error e =>
      intro hT
      have he : e = .timeout := Except.error.inj hT
      simp only [getCurrentPattern] at hg
      cases hh : (runHook pc.afterExit (popPatternContext
          (runHook pc.beforeExit _ _)) _).patternContext.head? with
      | none => rw [hh] at hg; cases hg; cases he
      | some p => rw [hh] at hg; cases hg
    | ok np => simp

theorem finishStep_advance {σ : Type} (pc : Hooks σ) (line : Str) (offset : Nat)
    (prePat : Nat) (acc : Cand) (s : TemplateState σ) (layer : Layer) (off' : Nat)
    (s' : TemplateState σ)
    (h : finishStep pc line offset prePat acc s = .ok (some (layer, off'), s')) :
    off' = acc.pos.toNat + matchedLen acc.matched ∧ ¬acc.found = .NONE := by
  simp only [finishStep] at h
  cases hfd : acc.found with
  | NONE =>
    rw [hfd] at h
    dsimp only at h
    cases h
  | PUSH =>
    rw [hfd] at h
    dsimp only at h
    cases h
    exact ⟨rfl, by simp⟩
  | POP =>
    rw [hfd] at h
    dsimp only at h
    cases hg : getCurrentPattern (runHook pc.afterExit (popPatternContext
        (runHook pc.beforeExit _ _)) _) with
    | error e => rw [hg] at h; cases h
    | ok np =>
      rw [hg] at h
      dsimp only at h
      cases h
      exact ⟨rfl, by simp⟩

theorem scanStep_good {σ : Type} (g : Grammar) (pc : Hooks σ) (line : Str) (offset : Nat)
    (s : TemplateState σ) (hg : goodGrammarB g = true) (hfrom : offset ≤ line.length) :
    ¬scanStep g pc line offset s = .error .timeout ∧
    (∀ (layer : Layer) (off' : Nat) (s' : TemplateState σ),
      scanStep g pc line offset s = .ok (some (layer, off'), s') →
      offset < off' ∧ off' ≤ line.length) := by
  simp only [scanStep]
  cases hcur : getCurrentPattern s with
  | error e =>
    have : e = ScanErr.crash := by
      simp only [getCurrentPattern] at hcur
      cases hh : s.patternContext.head? with
      | none => rw [hh] at hcur; cases hcur; rfl
      | some p => rw [hh] at hcur; cases hcur
    refine ⟨?_, fun layer off' s' h => absurd h (by simp)⟩
    intro hT
    have h2 : e = .timeout := Except.error.inj hT
    rw [this] at h2
    cases h2
  | ok prePat =>
  dsimp only
  cases hpd : lookupPattern g prePat with
  | error e =>
    have : e = ScanErr.crash := by
      simp only [lookupPattern] at hpd
      cases hgg : g.get? prePat with
      | none => rw [hgg] at hpd; cases hpd; rfl
      | some pd => rw [hgg] at hpd; cases hpd
    refine ⟨?_, fun layer off' s' h => absurd h (by simp)⟩
    intro hT
    have h2 : e = .timeout := Except.error.inj hT
    rw [this] at h2
    cases h2
  | ok pd =>
  dsimp only
  have hgoodcl := (goodGrammarB_spec g pd hg (lookupPattern_mem g prePat pd hpd)).2
  obtain ⟨hccnt, hccok⟩ := closerCand_good line offset prePat pd s hgoodcl hfrom
  cases hcc : closerCand line offset prePat pd s with
  | error e =>
    refine ⟨?_, fun layer off' s' h => absurd h (by simp)⟩
    intro hT
    have h2 : e = .timeout := Except.error.inj hT
    rw [h2] at hcc
    exact hccnt hcc
  | ok pr =>
  obtain ⟨acc₁, s₁⟩ := pr
  dsimp only
  have hacc₁ : CandOk line offset acc₁ := hccok acc₁ s₁ hcc
  have finish : ∀ (acc₂ : Cand) (s₂ : TemplateState σ),
      CandOk line offset acc₂ →
      ¬finishStep pc line offset prePat acc₂ s₂ = .error .timeout ∧
      (∀ (layer : Layer) (off' : Nat) (s' : TemplateState σ),
        finishStep pc line offset prePat acc₂ s₂ = .ok (some (layer, off'), s') →
        offset < off' ∧ off' ≤ line.length) := by
    intro acc₂ s₂ hacc₂
    refine ⟨finishStep_no_timeout pc line offset prePat acc₂ s₂, ?_⟩
    intro layer off' s' h
    obtain ⟨hoff, hne⟩ := finishStep_advance pc line offset prePat acc₂ s₂ layer off' s' h
    rcases hacc₂ with hN | ⟨hq, hge, hm, hle⟩
    · exact absurd hN hne
    · constructor <;> omega
  cases hch : pd.children with
  | none =>
    dsimp only
    exact finish acc₁ s₁ hacc₁
  | some cs =>
    dsimp only
    obtain ⟨hscnt, hscok⟩ := scanChildren_good g line offset pd.escape hg hfrom cs acc₁ s₁
      hacc₁
    cases hsc : scanChildren g line offset pd.escape cs acc₁ s₁ with
    | error e =>
      refine ⟨?_, fun layer off' s' h => absurd h (by simp)⟩
      intro hT
      have h2 : e = .timeout := Except.error.inj hT
      rw [h2] at hsc
      exact hscnt hsc
    | ok pr₂ =>
      obtain ⟨acc₂, s₂⟩ := pr₂
      dsimp only
      exact finish acc₂ s₂ (hscok acc₂ s₂ hsc)

theorem createLayersF_good {σ : Type} (g : Grammar) (pc : Hooks σ) (line : Str)
    (hg : goodGrammarB g = true) :
    ∀ (fuel : Nat) (offset : Nat) (s : TemplateState σ),
      line.length - offset < fuel →
      ¬createLayersF g pc fuel line offset s = .error .timeout := by
  intro fuel
  induction fuel with
  | zero =>
    intro offset s hfuel
    omega
  | succ fuel ih =>
    intro offset s hfuel
    simp only [createLayersF]
    by_cases hlt : offset < line.length
    · rw [if_pos hlt]
      obtain ⟨hnt, hadv⟩ := scanStep_good g pc line offset s hg (le_of_lt hlt)
      cases hsc : scanStep g pc line offset s with
      | error e =>
        intro hT
        have h2 : e = .timeout := Except.error.inj hT
        rw [h2] at hsc
        exact hnt hsc
      | ok pr =>
        obtain ⟨res, s₁⟩ := pr
        cases res with
        | none => simp
        | some lo =>
          obtain ⟨layer, off'⟩ := lo
          dsimp only
          obtain ⟨hadv₁, hle₁⟩ := hadv layer off' s₁ hsc
          have hrec := ih off' s₁ (by omega)
          cases hr : createLayersF g pc fuel line off' s₁ with
          | error e =>
            intro hT
            have h2 : e = .timeout := Except.error.inj hT
            rw [h2] at hr
            exact hrec hr
          | ok pr' => simp
    · rw [if_neg hlt]
      simp

theorem getCachedRegExpM_empty_src (s : TemplateState Unit) :
    ∃ s₁, getCachedRegExpM s [] [] .NONE true = .ok (⟨false, [], false⟩, s₁) ∧
      s₁.patternContext = s.patternContext := by
  simp only [getCachedRegExpM]
  have hp : parseRegex (normalizeSource [] AnchorMode.NONE) = some ⟨false, [], false⟩ := rfl
  rw [hp]
  dsimp only
  split
  · exact ⟨s, rfl, rfl⟩
  · exact ⟨_, rfl, rfl⟩

theorem loopGrammar_mwe (s : TemplateState Unit) :
    ∃ s₁, matchWithEscapeF (innerFuel "x".data) "x".data 0 (.regex [] []) none s =
        .ok ((0, some []), s₁) ∧ s₁.patternContext = s.patternContext := by
  obtain ⟨s₁, hgc, hpc₁⟩ := getCachedRegExpM_empty_src s
  refine ⟨s₁, ?_, hpc₁⟩
  have hjm : jsMatch "x".data 0 .DEFAULT (.regex [] []) s = .ok ((0, some []), s₁) := by
    simp only [jsMatch, hgc, Except.map]
    rfl
  simp only [matchWithEscapeF, hjm]
  rfl

theorem loopGrammar_step (s : TemplateState Unit) (i : Nat) (t : List Nat)
    (pd : PatternData) (ht : s.patternContext = i :: t)
    (hpd : lookupPattern loopGrammar i = .ok pd)
    (hcl : pd.close = none) (hch : pd.children = some [1]) (hesc : pd.escape = none) :
    ∃ s', scanStep loopGrammar (noHooks (σ := Unit)) "x".data 0 s =
        .ok (some (⟨0, some [], true, i, 1⟩, 0), s') ∧ s'.patternContext = 1 :: i :: t := by
  have hcur : getCurrentPattern s = .ok i := getCurrentPattern_eq s i t ht
  have hcc : closerCand "x".data 0 i pd s = .ok (⟨.NONE, -1, none, i⟩, s) := by
    simp only [closerCand, hcl]
  obtain ⟨s₁, hmwe, hpc₁⟩ := loopGrammar_mwe s
  have hsc : scanChildren loopGrammar "x".data 0 pd.escape [1] ⟨.NONE, -1, none, i⟩ s =
      .ok (⟨.PUSH, 0, some [], 1⟩, s₁) := by
    rw [hesc]
    simp only [scanChildren]
    have hlk1 : lookupPattern loopGrammar 1 =
        .ok { mode := none, «open» := some (.regex [] []), close := none, escape := none,
              children := some [1], includePattern := false, patternStyles := none } := rfl
    rw [hlk1]
    dsimp only
    rw [hmwe]
    dsimp only
    norm_num [scanChildren, patTruthy, selUpd]
  have hassem := scanStep_assemble loopGrammar noHooks "x".data 0 s i pd _ _ s s₁ [1] hcur
    hpd hcc hch hsc
  obtain ⟨s'', hfin⟩ := finishStep_push (noHooks (σ := Unit)) "x".data 0 i 0 (some []) 1 s₁
  have hpcfin := (finishStep_pc (noHooks (σ := Unit)) "x".data 0 i ⟨.PUSH, 0, some [], 1⟩
    s₁ _ _ noHooks_preservePC hfin).2.1 rfl
  refine ⟨s'', ?_, ?_⟩
  · rw [hassem]
    exact hfin
  · rw [hpcfin, hpc₁, ht]

theorem loopGrammar_timeout :
    ∀ (fuel : Nat) (s : TemplateState Unit) (t : List Nat),
      s.patternContext = 1 :: t →
      createLayersF loopGrammar (noHooks (σ := Unit)) fuel "x".data 0 s =
        .error .timeout := by
  intro fuel
  induction fuel with
  | zero => intro s t ht; rfl
  | succ fuel ih =>
    intro s t ht
    obtain ⟨s', hstep, hpc'⟩ := loopGrammar_step s 1 t _ ht rfl rfl rfl rfl
    simp only [createLayersF]
    rw [if_pos (by norm_num)]
    rw [hstep]
    dsimp only
    rw [ih s' (1 :: t) hpc']

/-- C9 counterexample: with a grammar whose child opener is a regexp
matching the empty string and whose child contains itself, the matched
text of every transition is empty, the offset never advances, and the
scan loop never terminates: no amount of fuel completes the call. -/
theorem c9_counterexample :
    ¬ScanTerminates loopGrammar (noHooks (σ := Unit)) "x".data 0 w0 := by
  rintro ⟨fuel, hfuel⟩
  apply hfuel
  cases fuel with
  | zero => rfl
  | succ fuel =>
    obtain ⟨s', hstep, hpc'⟩ := loopGrammar_step w0 0 [] _ rfl rfl rfl rfl rfl
    simp only [createLayersF]
    rw [if_pos (by norm_num)]
    rw [hstep]
    dsimp only
    rw [loopGrammar_timeout fuel s' [0] hpc']

/-- C9 (amended): every tokenize call terminates provided every consumed
transition has nonzero matched length — in particular for grammars whose
`open`/`close` specs are all (possibly empty) literals or the built-in
callback, `createLayers` completes within `line.length + 1` loop
iterations (fuel), each `matchWithEscape` search within `line.length + 2`
resumes; with zero-width matches (an empty-matching regexp opener) the
offset does not advance and the loop runs forever. -/
theorem c9_termination :
    (∀ (σ : Type) (g : Grammar) (pc : Hooks σ) (line : Str) (offset : Nat)
        (s : TemplateState σ),
      goodGrammarB g = true →
      ¬createLayersF g pc (line.length + 1) line offset s = .error .timeout) ∧
    (∀ (σ : Type) (g : Grammar) (pc : Hooks σ) (line : Str) (offset : Nat)
        (s : TemplateState σ),
      goodGrammarB g = true → ScanTerminates g pc line offset s) := by
  constructor
  · intro σ g pc line offset s hg
    exact createLayersF_good g pc line hg (line.length + 1) offset s (by omega)
  · intro σ g pc line offset s hg
    exact ⟨line.length + 1, createLayersF_good g pc line hg (line.length + 1) offset s
      (by omega)⟩

theorem c9_termination_witness :
    goodGrammarB plainParenGrammar = true ∧
    ¬createLayersF plainParenGrammar (noHooks (σ := Unit)) (("(x)".data).length + 1)
        "(x)".data 0 w0 = .error .timeout :=
  ⟨by decide,
    c9_termination.1 Unit plainParenGrammar noHooks "(x)".data 0 w0 (by decide)⟩

/-- C4 counterexample: a tokenize call that reaches an opening layer at the
exact cursor position with `patternStyles` absent and `includePattern`
false does NOT fail: it is handled by the final fallback branch, which
forwards up to the delimiter's end (here unstyled, as no sub-mode is
active), consumes the layer, and returns normally. -/
theorem c4_counterexample :
    token env0 plainParenGrammar (noHooks (σ := Unit)) 10 ⟨"(x".data, 0, 0⟩ w0 =
      .ok (none, ⟨"(x".data, 0, 1⟩,
        { textBefore := ['x'], patternContext := [1, 0], stateContext := [],
          useRoot := false, start := true, layers := some [], regExpCache := [],
          customs := [] }) ∧
    ¬token env0 plainParenGrammar (noHooks (σ := Unit)) 10 ⟨"(x".data, 0, 0⟩ w0 =
      .error .crash := by
  constructor
  · decide
  · decide

/-- C4 (amended): when the dispatcher reaches a layer whose position
equals the cursor and the transitioning pattern declares neither
`patternStyles` nor `includePattern` semantics, the call does not fail:
the final fallback branch forwards the delimiter text via `tokenUntil` to
the delimiter's end, synchronizes the embedded-mode state on reaching it
and consumes the layer (no internal-invariant error; those errors arise
only when the cursor sits strictly past the layer's end, or inside
`tokenPattern` on a position/styles mismatch). -/
theorem c4_boundary_no_styles_not_fatal {σ : Type} (env : ModeEnv σ) (g : Grammar)
    (pc : Hooks σ) (fuel : Nat) (stream : Stream) (s : TemplateState σ)
    (layer : Layer) (rest : List Layer) (pd prePd : PatternData)
    (hstart : s.start = true)
    (hsol : ¬stream.pos = 0)
    (hlayers : s.layers = some (layer :: rest))
    (hopen : layer.«open» = true)
    (hat : stream.start = layer.pos)
    (hnext : lookupPattern g layer.nextPattern = .ok pd)
    (hpre : lookupPattern g layer.prePattern = .ok prePd)
    (hstyles : pd.patternStyles = none)
    (hinc : pd.includePattern = false)
    (hmode : pd.mode = none)
    (hctx : s.stateContext = [])
    (hend : layer.pos + matchedLen layer.matched < stream.string.length) :
    token env g pc fuel stream s =
      .ok (none, { stream with pos := layer.pos + matchedLen layer.matched },
        { s with layers := some rest }) := by
  have hcond : (¬s.start = true ∨ stream.sol = true) = False := by
    simp [hstart, Stream.sol, hsol]
  simp only [token, hstart, Stream.sol, hlayers]
  rw [if_neg (by simp [hsol])]
  simp only [hlayers]
  rw [if_neg (by rw [hat]; omega)]
  rw [if_pos (by rw [hat])]
  simp only [hopen, if_true]
  rw [hnext]
  dsimp only
  simp only [hstyles, Option.isSome_none, Bool.false_eq_true, if_false]
  rw [if_neg (by simp [hinc])]
  rw [if_neg (by simp [hopen])]
  simp only [tokenUntil, hctx]
  simp only [hlayers]
  simp only [if_true]
  simp only [syncState, hnext, hpre]
  rw [if_neg (by simp [hmode, modeTruthy])]
  have heol : ({ stream with pos := layer.pos + matchedLen layer.matched } : Stream).eol
      = false := by
    simp only [Stream.eol, decide_eq_false_iff_not, not_le]
    exact hend
  simp [heol, hstart, hctx, hopen]

theorem c4_boundary_witness :
    token env0 plainParenGrammar (noHooks (σ := Unit)) 10 ⟨"a(x".data, 1, 1⟩
        { w0 with
          start := true
          patternContext := [1, 0]
          layers := some [⟨1, some ['('], true, 0, 1⟩] } =
      .ok (none, ⟨"a(x".data, 1, 2⟩,
        { w0 with
          start := true
          patternContext := [1, 0]
          layers := some [] }) := by
  have h := c4_boundary_no_styles_not_fatal env0 plainParenGrammar
    (noHooks (σ := Unit)) 10 ⟨"a(x".data, 1, 1⟩
    { w0 with
      start := true
      patternContext := [1, 0]
      layers := some [⟨1, some ['('], true, 0, 1⟩] }
    ⟨1, some ['('], true, 0, 1⟩ [] _ _ rfl (by decide) rfl rfl rfl rfl rfl rfl rfl rfl rfl
    (by decide)
  simpa using h

end CxjTemplate
